import Mathlib

/-! # cells-client: multipart transfer engine and credential store

A shallow embedding of `rest/files.go` (`partReader.Read`, `multiPartUpload`),
`v2/rest/keyring.go` (`ConfigToKeyring`, `ConfigFromKeyring`, `ClearKeyring`),
`v2/rest/clients.go` (`RefreshAndStoreIfRequired`) and `v2/cmd/root.go`
(`getCecConfigFromEnv`, `handleLegagyParams`), with the properties of the
specification proved or refuted over it.

Conventions of the embedding:
* Go `error` values are `Option GoError` (`none` is `nil`);
* Go `int`/`int64` values are `Int`. The `int64` sums and differences of
  `partReader.Read` and the loop counter `curr` of `multiPartUpload` wrap
  around, which is written out with `wrapInt64`; the other quantities of
  `multiPartUpload` stay below `2^63` whenever the size does;
* byte slices are `List Nat`, and memory is not bounded: `make([]byte, k)`
  yields `k` bytes for every `k ≥ 0` and panics for `k < 0`;
* Go strings are `String`s, that is sequences of characters where Go has
  sequences of bytes (the separators the code looks for are ASCII, so both
  views cut a well-formed text at the same places);
* the collaborators the code calls but does not define (the underlying
  `io.ReadSeeker`, the S3 client, the OS keyring) are parameters.
-/

namespace CellsClient

/-! ## Errors -/

/-- A Go `error` value: the text returned by its `Error()` method and whether
its dynamic type implements `awserr.Error`. -/
structure GoError where
  text : String
  isAwsErr : Bool
deriving DecidableEq, Repr

/-- The sentinel `io.EOF`. -/
def io_EOF : GoError := ⟨"EOF", false⟩

/-! ## Machine integers -/

/-- Two's-complement wrap-around of an `int64` result. -/
def wrapInt64 (x : Int) : Int := (x + 2 ^ 63) % 2 ^ 64 - 2 ^ 63

/-! ## Bounded part reader (`rest/files.go`, lines 191-214) -/

/-- Outcome of one `Read(p)` call: the returned count `n`, the returned error,
the contents of the caller's buffer `p` after the call, and the state of the
receiver after the call. -/
structure ReadOut (σ : Type) where
  n : Int
  err : Option GoError
  buf : List Nat
  next : σ

/-- The embedded `io.ReadSeeker` of a `partReader`, as far as `Read` uses it:
its `Read` method, acting on a stream state `σ` and a buffer. -/
structure ReadSeeker (σ : Type) where
  Read : σ → List Nat → ReadOut σ

/-- The struct `partReader`; the field `ReadSeeker` holds the state of the
embedded stream. -/
structure partReader (σ : Type) where
  ReadSeeker : σ
  partLength : Int
  cur : Int

/-- Go's builtin `copy(dst, src)`: overwrites the first
`min(len(dst), len(src))` elements of `dst`; the result is the new `dst`. -/
def copy (dst src : List Nat) : List Nat :=
  src.take dst.length ++ dst.drop src.length

/-- Go's `make([]byte, k)` for `k ≥ 0`: `k` zero bytes. -/
def makeBytes (k : Int) : List Nat := List.replicate k.toNat 0

/-- Outcome of one `Read(p)` call on a `partReader`: whether the call
panicked, and otherwise the returned count `n`, the returned error, the
contents of the caller's buffer `p` after the call, and the `partReader` after
the call. -/
structure PartReadOut (σ : Type) where
  panicked : Bool
  n : Int
  err : Option GoError
  buf : List Nat
  next : partReader σ

/-- The method `(pr *partReader) Read(p []byte) (n int, err error)`. The sums
`pr.cur + int64(len(p))` and `pr.cur += int64(n)` and the difference
`targetCurs - pr.partLength` are `int64` operations and wrap around;
`make([]byte, remaining)` panics when `remaining` is negative. -/
def partReader.Read {σ : Type} (rs : CellsClient.ReadSeeker σ) (pr : partReader σ)
    (p : List Nat) : PartReadOut σ :=
  let targetCurs := wrapInt64 (pr.cur + (p.length : Int))
  if targetCurs > pr.partLength then
    let remaining := wrapInt64 (targetCurs - pr.partLength)
    if remaining < 0 then
      -- `make([]byte, remaining)`: makeslice: len out of range
      { panicked := true, n := 0, err := none, buf := p, next := pr }
    else
      let p2 := makeBytes remaining
      let r := rs.Read pr.ReadSeeker p2
      match r.err with
      | some e =>
        -- `if err != nil { return }`: `p` and `pr.cur` are left as they were
        { panicked := false, n := r.n, err := some e, buf := p,
          next := { pr with ReadSeeker := r.next } }
      | none =>
        { panicked := false, n := r.n, err := some io_EOF, buf := copy p r.buf,
          next := { pr with ReadSeeker := r.next, cur := wrapInt64 (pr.cur + r.n) } }
  else
    let r := rs.Read pr.ReadSeeker p
    { panicked := false, n := r.n, err := r.err, buf := r.buf,
      next := { pr with ReadSeeker := r.next, cur := wrapInt64 (pr.cur + r.n) } }

/-- A sequence of `Read` calls with buffers of the given sizes (each buffer is
freshly zeroed); returns the counts `n` of the calls, in order, up to the first
call that panics. -/
def readCounts {σ : Type} (rs : CellsClient.ReadSeeker σ) : partReader σ → List Nat → List Int
  | _, [] => []
  | pr, k :: ks =>
    let r := partReader.Read rs pr (List.replicate k 0)
    if r.panicked then [] else r.n :: readCounts rs r.next ks

/-- An in-memory stream in the manner of `bytes.Reader`, used as a concrete
underlying stream: `data` are the bytes not yet read and `asked` records the
length of every buffer its `Read` was handed, most recent first. -/
structure MemStream where
  data : List Nat
  asked : List Nat
deriving DecidableEq, Repr

/-- `Read` of the in-memory stream: end-of-stream when no byte is left,
otherwise as many bytes as fit into `p`. -/
def MemStream.Read (s : MemStream) (p : List Nat) : ReadOut MemStream :=
  if s.data.length = 0 then
    { n := 0, err := some io_EOF, buf := p, next := { s with asked := p.length :: s.asked } }
  else
    { n := ((min p.length s.data.length : Nat) : Int), err := none, buf := copy p s.data,
      next := { data := s.data.drop p.length, asked := p.length :: s.asked } }

/-- The in-memory stream as a `ReadSeeker`. -/
def memReadSeeker : CellsClient.ReadSeeker MemStream := ⟨MemStream.Read⟩

/-- A fresh `partReader` (`cur = 0`) over an in-memory stream of `k` bytes. -/
def freshPartReader (k : Nat) (partLength : Int) : partReader MemStream :=
  { ReadSeeker := { data := List.range k, asked := [] }, partLength := partLength, cur := 0 }

/-! ## Multipart transfer engine (`rest/files.go`, lines 110-189) -/

/-- Result of a collaborator call that yields a value or a non-nil error. -/
inductive Res (α : Type) where
  | ok (val : α)
  | fail (err : GoError)
deriving DecidableEq, Repr

/-- The fields of `s3.CreateMultipartUploadOutput` the engine passes on
(`*string` values, `none` is `nil`). -/
structure CreateMultipartUploadOutput where
  Bucket : Option String
  Key : Option String
  UploadId : Option String
deriving DecidableEq, Repr

/-- The struct `s3.UploadPartInput` as `multiPartUpload` fills it. `Body` is a
`partReader` over the caller's `content` stream; the field records the
`partLength` that reader is created with. -/
structure UploadPartInput where
  Body : Int
  ContentLength : Int
  Bucket : Option String
  Key : Option String
  UploadId : Option String
  PartNumber : Int
deriving DecidableEq, Repr

/-- The struct `s3.CompletedPart`. -/
structure CompletedPart where
  ETag : Option String
  PartNumber : Int
deriving DecidableEq, Repr

/-- One call of `multiPartUpload` to a collaborator, with its arguments and
the answer it received. -/
inductive Event where
  | GetS3Client (res : Res String)
  | CreateMultipartUpload (Bucket Key ContentType : String)
      (res : Res CreateMultipartUploadOutput)
  | RefreshAndStoreIfRequired (res : Option Bool)
  | UploadPart (input : UploadPartInput) (res : Res (Option String))
  | AbortMultipartUpload (Bucket Key UploadId : Option String) (res : Option GoError)
  | CompleteMultipartUpload (Bucket Key UploadId : Option String)
      (Parts : List CompletedPart) (res : Option GoError)
deriving DecidableEq, Repr

/-- The collaborators of `multiPartUpload`. Each answer may depend on all
earlier calls and their answers (the list of events so far, oldest first) and on
the arguments of the call.

* `GetS3Client` answers with the bucket name or an error (the client itself is
  not inspected by the engine, only whether it is `nil`);
* `RefreshAndStoreIfRequired` answers `some refreshed`, or `none` when it ends
  the process through `log.Fatal`;
* `UploadPart` answers with the part's `ETag` or an error;
* `AbortMultipartUpload` and `CompleteMultipartUpload` answer with their error. -/
structure S3World where
  GetS3Client : List Event → Res String
  CreateMultipartUpload : List Event → String → String → String →
    Res CreateMultipartUploadOutput
  RefreshAndStoreIfRequired : List Event → Option Bool
  UploadPart : List Event → UploadPartInput → Res (Option String)
  AbortMultipartUpload : List Event → Option String → Option String → Option String →
    Option GoError
  CompleteMultipartUpload : List Event → Option String → Option String → Option String →
    List CompletedPart → Option GoError

/-- How a call of a Go function ends. -/
inductive Outcome where
  | returned (err : Option GoError)
  | panicked
  | exited
deriving DecidableEq, Repr

/-- What one run of `multiPartUpload` does: how it ends, the collaborator calls
it makes (oldest first) and the values it sends on `errChan` (oldest first; a
`nil` error is `none`). -/
structure Run where
  outcome : Outcome
  events : List Event
  errChan : List (Option GoError)
deriving DecidableEq, Repr

/-- The initial value `50 * 1024 * 1024` of `partLength`. -/
def partSize : Int := 50 * 1024 * 1024

/-- The local variables of `multiPartUpload` that live across iterations of the
part loop, and the events so far. `s3ClientNil` tells whether the variable
`s3Client` holds `nil`. -/
structure LoopState where
  curr : Int
  remaining : Int
  partLength : Int
  partNumber : Int
  completedParts : List CompletedPart
  s3ClientNil : Bool
  events : List Event
deriving DecidableEq, Repr

/-- How one iteration of the part loop ends: control goes back to the loop
condition, or the function ends inside the body. -/
inductive StepExit where
  | next (st : LoopState)
  | stopped (r : Run)
deriving DecidableEq, Repr

/-- How the part loop is left: its condition `remaining != 0` became false, or
the function ended inside the body. -/
inductive LoopExit where
  | completed (st : LoopState)
  | stopped (r : Run)
deriving DecidableEq, Repr

/-- One iteration of the loop `for curr = 0; remaining != 0; curr += partLength`
of `multiPartUpload`: the body (lines 136-168) followed by the post statement
`curr += partLength`. -/
def partStep (w : S3World) (multipartOutput : CreateMultipartUploadOutput)
    (st : LoopState) : StepExit :=
  let partLength := if st.remaining < st.partLength then st.remaining else st.partLength
  match w.RefreshAndStoreIfRequired st.events with
  | none =>
    .stopped { outcome := .exited,
               events := st.events ++ [Event.RefreshAndStoreIfRequired none], errChan := [] }
  | some refreshed =>
    let events1 := st.events ++ [Event.RefreshAndStoreIfRequired (some refreshed)]
    -- `s3Client, _, _ = GetS3Client()`: a failure leaves `nil` in `s3Client`
    let got := w.GetS3Client events1
    let s3ClientNil :=
      if refreshed then (match got with | .ok _ => false | .fail _ => true)
      else st.s3ClientNil
    let events2 := if refreshed then events1 ++ [Event.GetS3Client got] else events1
    let partNumber := st.partNumber + 1
    let input : UploadPartInput :=
      { Body := partLength, ContentLength := partLength,
        Bucket := multipartOutput.Bucket, Key := multipartOutput.Key,
        UploadId := multipartOutput.UploadId, PartNumber := partNumber }
    if s3ClientNil then
      -- method call through a nil `*s3.S3`
      .stopped { outcome := .panicked, events := events2, errChan := [] }
    else
      match w.UploadPart events2 input with
      | .fail e1 =>
        -- `if _, err = s3Client.AbortMultipartUpload(...); err != nil`
        let events3 := events2 ++ [Event.UploadPart input (.fail e1)]
        let err := w.AbortMultipartUpload events3 multipartOutput.Bucket
          multipartOutput.Key multipartOutput.UploadId
        -- `errChan <- err; return err` in both branches, with the `err` assigned by
        -- the `if` statement above
        .stopped { outcome := .returned err,
                   events := events3 ++ [Event.AbortMultipartUpload multipartOutput.Bucket
                     multipartOutput.Key multipartOutput.UploadId err],
                   errChan := [err] }
      | .ok etag =>
        .next { curr := wrapInt64 (st.curr + partLength),
                remaining := st.remaining - partLength,
                partLength := partLength,
                partNumber := partNumber,
                completedParts := st.completedParts ++
                  [{ ETag := etag, PartNumber := partNumber }],
                s3ClientNil := s3ClientNil,
                events := events2 ++ [Event.UploadPart input (.ok etag)] }

/-- The loop `for curr = 0; remaining != 0; curr += partLength { ... }` of
`multiPartUpload`, from the test of its condition on; `none` when the fuel is
used up. -/
def partLoop (w : S3World) (multipartOutput : CreateMultipartUploadOutput) :
    Nat → LoopState → Option LoopExit
  | 0, _ => none
  | fuel + 1, st =>
    if st.remaining = 0 then some (.completed st) else
    match partStep w multipartOutput st with
    | .stopped r => some (.stopped r)
    | .next st1 => partLoop w multipartOutput fuel st1

/-- The function `multiPartUpload(path, content, size, errChan)`. The part loop
is given `|size| + 1` units of fuel (`multiPartUpload_returns` shows that this
is always enough). -/
def multiPartUpload (w : S3World) (path : String) (size : Int) : Option Run :=
  let got := w.GetS3Client []
  let events0 := [Event.GetS3Client got]
  match got with
  | .fail err => some { outcome := .returned (some err), events := events0, errChan := [some err] }
  | .ok bucket =>
    let created := w.CreateMultipartUpload events0 bucket path "application/octet-stream"
    let events1 := events0 ++
      [Event.CreateMultipartUpload bucket path "application/octet-stream" created]
    match created with
    | .fail err =>
      some { outcome := .returned (some err), events := events1, errChan := [some err] }
    | .ok multipartOutput =>
      match partLoop w multipartOutput (size.natAbs + 1)
          { curr := 0, remaining := size, partLength := partSize, partNumber := 0,
            completedParts := [], s3ClientNil := false, events := events1 } with
      | none => none
      | some (.stopped r) => some r
      | some (.completed st) =>
        if st.s3ClientNil then
          some { outcome := .panicked, events := st.events, errChan := [] }
        else
          let err := w.CompleteMultipartUpload st.events multipartOutput.Bucket
            multipartOutput.Key multipartOutput.UploadId st.completedParts
          let events2 := st.events ++ [Event.CompleteMultipartUpload multipartOutput.Bucket
            multipartOutput.Key multipartOutput.UploadId st.completedParts err]
          match err with
          | some e =>
            if e.isAwsErr then
              some { outcome := .returned (some e), events := events2, errChan := [some e] }
            else
              -- `return err.(awserr.Error)`: the type assertion fails
              some { outcome := .panicked, events := events2, errChan := [some e] }
          | none => some { outcome := .returned none, events := events2, errChan := [] }

/-- The `UploadPart` calls among the events, in order: input and answer. -/
def uploads : List Event → List (UploadPartInput × Res (Option String))
  | [] => []
  | Event.UploadPart input res :: es => (input, res) :: uploads es
  | _ :: es => uploads es

/-- A world in which every collaborator call succeeds, no refresh happens, and
the `ETag` of a part is the text `etag` followed by as many `x` as there were
events before the call. -/
def happyWorld : S3World where
  GetS3Client := fun _ => .ok "io"
  CreateMultipartUpload := fun _ _ key _ => .ok ⟨some "io", some key, some "upload-1"⟩
  RefreshAndStoreIfRequired := fun _ => some false
  UploadPart := fun es _ => .ok (some (String.mk ('e' :: List.replicate es.length 'x')))
  AbortMultipartUpload := fun _ _ _ _ => none
  CompleteMultipartUpload := fun _ _ _ _ _ => none

/-- The happy world, except that the `UploadPart` call for part number `k`
fails with `e1` and `AbortMultipartUpload` answers `abortErr`. -/
def failingWorld (k : Int) (e1 : GoError) (abortErr : Option GoError) : S3World :=
  { happyWorld with
    UploadPart := fun es input =>
      if input.PartNumber = k then .fail e1 else happyWorld.UploadPart es input
    AbortMultipartUpload := fun _ _ _ _ => abortErr }

/-! ## Credential store (`v2/rest/keyring.go`) -/

/-- The constants of package `common` that the credential store uses. The
package is not among the sources, so its constants are parameters. The three
auth kinds label the cases of one `switch` statement, which Go only compiles
when they are pairwise different. -/
structure Common where
  AppName : String
  PatType : String
  OAuthType : String
  ClientAuthType : String
  distinct : PatType ≠ OAuthType ∧ PatType ≠ ClientAuthType ∧ OAuthType ≠ ClientAuthType

/-- The struct `CecConfig`: the fields of the embedded `cells_sdk.SdkConfig`
that the sources read or write, then `SkipKeyring` and `AuthType`. -/
structure CecConfig where
  Url : String
  User : String
  Password : String
  IdToken : String
  RefreshToken : String
  TokenExpiresAt : Int
  SkipVerify : Bool
  UseTokenCache : Bool
  SkipKeyring : Bool
  AuthType : String
deriving DecidableEq, Repr

/-- The OS keyring behind package `go-keyring`, as a key-value map from
(service, user) to the secret, together with the failures it is made to
report: when `GetErr`, `SetErr` or `DeleteErr` answers `some e` for a
(service, user) pair, the operation on that pair fails with `e` and changes
nothing. A working keyring has all three constantly `none`. -/
structure Keyring where
  secrets : String → String → Option String
  GetErr : String → String → Option GoError
  SetErr : String → String → Option GoError
  DeleteErr : String → String → Option GoError

/-- The error `keyring.ErrNotFound`. -/
def ErrNotFound : GoError := ⟨"secret not found in keyring", false⟩

/-- The call `keyring.Get(service, user)`. -/
def Keyring.Get (kr : Keyring) (service user : String) : Res String :=
  match kr.GetErr service user with
  | some e => .fail e
  | none =>
    match kr.secrets service user with
    | some v => .ok v
    | none => .fail ErrNotFound

/-- The call `keyring.Set(service, user, password)`: the error and the keyring
afterwards. -/
def Keyring.Set (kr : Keyring) (service user password : String) : Option GoError × Keyring :=
  match kr.SetErr service user with
  | some e => (some e, kr)
  | none =>
    (none, { kr with secrets := fun s u =>
      if s = service ∧ u = user then some password else kr.secrets s u })

/-- The call `keyring.Delete(service, user)`: the error and the keyring
afterwards. -/
def Keyring.Delete (kr : Keyring) (service user : String) : Option GoError × Keyring :=
  match kr.DeleteErr service user with
  | some e => (some e, kr)
  | none =>
    match kr.secrets service user with
    | none => (some ErrNotFound, kr)
    | some _ =>
      (none, { kr with secrets := fun s u =>
        if s = service ∧ u = user then none else kr.secrets s u })

/-- A working keyring holding no secret. -/
def emptyKeyring : Keyring :=
  { secrets := fun _ _ => none, GetErr := fun _ _ => none, SetErr := fun _ _ => none,
    DeleteErr := fun _ _ => none }

/-- The function `getKeyringServiceName`. -/
def getKeyringServiceName (c : Common) : String := "com.pydio." ++ c.AppName

/-- The constant `keySep`. -/
def keySep : String := "::"

/-- The constant `valueSep`. -/
def valueSep : String := "__//__"

/-- The function `key(prefix, suffix)`. -/
def key (pfx sfx : String) : String := pfx ++ keySep ++ sfx

/-- The function `value(prefix, suffix)`. -/
def value (pfx sfx : String) : String := pfx ++ valueSep ++ sfx

/-- Scanning loop of `strings.Split` for a non-empty separator: `skip` counts
the characters of a separator just matched that are still to be passed over,
`acc` holds the current piece in reverse. -/
def splitFrom (sep : List Char) : Nat → List Char → List Char → List (List Char)
  | _, acc, [] => [acc.reverse]
  | skip + 1, acc, _ :: cs => splitFrom sep skip acc cs
  | 0, acc, c :: cs =>
    if sep.isPrefixOf (c :: cs) then acc.reverse :: splitFrom sep (sep.length - 1) [] cs
    else splitFrom sep 0 (c :: acc) cs

/-- Go's `strings.Split(s, sep)` for a non-empty `sep` (the sources only pass
non-empty constants): the pieces of `s` between the successive leftmost
occurrences of `sep`. -/
def stringsSplit (s sep : String) : List String :=
  (splitFrom sep.data 0 [] s.data).map String.mk

/-- The function `splitValue`. -/
def splitValue (value : String) : List String := stringsSplit value valueSep

/-- What a credential-store operation leaves behind: how it ended, the record
`*conf` and the keyring. -/
structure StoreResult where
  outcome : Outcome
  conf : CecConfig
  keyring : Keyring

/-- The functions of package `rest` that the credential store calls and that
are not among the sources. `RefreshIfRequired(conf)` has an effect on `*conf`,
given by `RefreshIfRequired`, and returns the pair `(refreshed, err)`, given by
`RefreshIfRequiredAnswer`; `retrieveLegacyKey` calls it for its effect only and
drops the pair. `UpdateConfig(conf)` yields the error that `retrieveLegacyKey`
returns. -/
structure Collaborators where
  RefreshIfRequired : CecConfig → CecConfig
  RefreshIfRequiredAnswer : CecConfig → Bool × Option GoError
  UpdateConfig : Keyring → CecConfig → StoreResult

/-- The function `ConfigToKeyring`. -/
def ConfigToKeyring (c : Common) (kr : Keyring) (conf : CecConfig) : StoreResult :=
  let currKey := key conf.Url conf.User
  if conf.AuthType = c.PatType then
    match kr.Set (getKeyringServiceName c) currKey conf.IdToken with
    | (some e, kr1) => { outcome := .returned (some e), conf := conf, keyring := kr1 }
    | (none, kr1) =>
      { outcome := .returned none, conf := { conf with IdToken := "" }, keyring := kr1 }
  else if conf.AuthType = c.OAuthType then
    let value := value conf.IdToken conf.RefreshToken
    match kr.Set (getKeyringServiceName c) currKey value with
    | (some e, kr1) => { outcome := .returned (some e), conf := conf, keyring := kr1 }
    | (none, kr1) =>
      { outcome := .returned none, conf := { conf with IdToken := "", RefreshToken := "" },
        keyring := kr1 }
  else if conf.AuthType = c.ClientAuthType then
    match kr.Set (getKeyringServiceName c) currKey conf.Password with
    | (some e, kr1) => { outcome := .returned (some e), conf := conf, keyring := kr1 }
    | (none, kr1) =>
      { outcome := .returned none, conf := { conf with Password := "" }, keyring := kr1 }
  else
    { outcome := .returned none, conf := conf, keyring := kr }

/-- The function `retrieveLegacyKey`. Indexing `parts[1]` panics when the
stored value holds no separator. -/
def retrieveLegacyKey (c : Common) (x : Collaborators) (kr : Keyring) (conf : CecConfig) :
    StoreResult :=
  if conf.User ≠ "" ∧ conf.Password = "" then
    match kr.Get (getKeyringServiceName c) (key conf.Url "ClientCredentials") with
    | .ok value =>
      match splitValue value with
      | _ :: p1 :: _ =>
        let conf1 := { conf with Password := p1, AuthType := c.ClientAuthType }
        let kr1 := (kr.Delete (getKeyringServiceName c) (key conf.Url "ClientCredentials")).2
        x.UpdateConfig kr1 conf1
      | _ => { outcome := .panicked, conf := conf, keyring := kr }
    | .fail e => { outcome := .returned (some e), conf := conf, keyring := kr }
  else if conf.IdToken = "" ∧ conf.RefreshToken = "" ∧ conf.Password = "" then
    match kr.Get (getKeyringServiceName c) (key conf.Url "IdToken") with
    | .ok value =>
      match splitValue value with
      | p0 :: p1 :: _ =>
        let conf1 := { conf with IdToken := p0, RefreshToken := p1, AuthType := c.OAuthType }
        let conf2 := x.RefreshIfRequired conf1
        let kr1 := (kr.Delete (getKeyringServiceName c) (key conf2.Url "IdToken")).2
        x.UpdateConfig kr1 conf2
      | [p0] => { outcome := .panicked, conf := { conf with IdToken := p0 }, keyring := kr }
      | [] => { outcome := .panicked, conf := conf, keyring := kr }
    | .fail e => { outcome := .returned (some e), conf := conf, keyring := kr }
  else
    x.UpdateConfig kr conf

/-- The `switch conf.AuthType` at the end of `ConfigFromKeyring`, which feeds
the value read from the keyring into the record. Indexing `parts[1]` panics
when the value holds no separator. -/
def feedSecret (c : Common) (value : String) (kr : Keyring) (conf : CecConfig) : StoreResult :=
  if conf.AuthType = c.OAuthType then
    match splitValue value with
    | p0 :: p1 :: _ =>
      { outcome := .returned none, conf := { conf with IdToken := p0, RefreshToken := p1 },
        keyring := kr }
    | [p0] => { outcome := .panicked, conf := { conf with IdToken := p0 }, keyring := kr }
    | [] => { outcome := .panicked, conf := conf, keyring := kr }
  else if conf.AuthType = c.ClientAuthType then
    { outcome := .returned none, conf := { conf with Password := value }, keyring := kr }
  else if conf.AuthType = c.PatType then
    { outcome := .returned none, conf := { conf with IdToken := value }, keyring := kr }
  else
    { outcome := .returned none, conf := conf, keyring := kr }

/-- The function `ConfigFromKeyring`. -/
def ConfigFromKeyring (c : Common) (x : Collaborators) (kr : Keyring) (conf : CecConfig) :
    StoreResult :=
  match kr.Get (getKeyringServiceName c) (key conf.Url conf.User) with
  | .ok value => feedSecret c value kr conf
  | .fail _ =>
    -- Best effort to retrieve legacy conf
    let r := retrieveLegacyKey c x kr conf
    match r.outcome with
    | .returned none =>
      match r.keyring.Get (getKeyringServiceName c) (key r.conf.Url r.conf.User) with
      | .ok value => feedSecret c value r.keyring r.conf
      | .fail err => { outcome := .returned (some err), conf := r.conf, keyring := r.keyring }
    | _ => r

/-- The function `ClearKeyring`. -/
def ClearKeyring (c : Common) (kr : Keyring) (conf : CecConfig) : StoreResult :=
  match kr.Delete (getKeyringServiceName c) (key conf.Url conf.User) with
  | (some err, kr1) =>
    if err.text ≠ "secret not found in keyring" then
      { outcome := .returned (some err), conf := conf, keyring := kr1 }
    else
      { outcome := .returned none, conf := conf, keyring := kr1 }
  | (none, kr1) => { outcome := .returned none, conf := conf, keyring := kr1 }

/-- Sample values for the constants of package `common`. -/
def sampleCommon : Common :=
  { AppName := "cells-client", PatType := "Personal Access Token", OAuthType := "OAuth2",
    ClientAuthType := "Client Credentials", distinct := by decide }

/-- Collaborators that do nothing: no refresh, and an `UpdateConfig` that
succeeds without touching record or keyring. -/
def idleCollaborators : Collaborators :=
  { RefreshIfRequired := fun conf => conf,
    RefreshIfRequiredAnswer := fun _ => (false, none),
    UpdateConfig := fun kr conf => { outcome := .returned none, conf := conf, keyring := kr } }

/-- A sample record for `url`, `user` and auth kind `authType` with the given
secret fields. -/
def sampleConf (authType idToken refreshToken password : String) : CecConfig :=
  { Url := "https://cells.example.com", User := "alice", Password := password,
    IdToken := idToken, RefreshToken := refreshToken, TokenExpiresAt := 0,
    SkipVerify := false, UseTokenCache := true, SkipKeyring := false, AuthType := authType }

/-! ## Shape of a run of the engine -/

/-- Events that let the part loop go on: a refresh check that returns, a
storage client obtained, a part uploaded. -/
def Event.benign : Event → Bool
  | .RefreshAndStoreIfRequired (some _) => true
  | .GetS3Client (.ok _) => true
  | .UploadPart _ (.ok _) => true
  | _ => false

/-- Recognises an `AbortMultipartUpload` call. -/
def Event.isAbort : Event → Bool
  | .AbortMultipartUpload _ _ _ _ => true
  | _ => false

/-- Recognises a `CompleteMultipartUpload` call. -/
def Event.isComplete : Event → Bool
  | .CompleteMultipartUpload _ _ _ _ _ => true
  | _ => false

/-- Recognises an `UploadPart` call. -/
def Event.isUploadPart : Event → Bool
  | .UploadPart _ _ => true
  | _ => false

/-- The ways the part loop ends the function, as a relation between the last
events `tail` of the run and what the run reports. -/
def StopShape (out : CreateMultipartUploadOutput) (r : Run) (tail : List Event) : Prop :=
  (tail = [Event.RefreshAndStoreIfRequired none] ∧ r.outcome = .exited ∧ r.errChan = []) ∨
  (∃ e, tail = [Event.GetS3Client (.fail e)] ∧ r.outcome = .panicked ∧ r.errChan = []) ∨
  (∃ input e res, tail = [Event.UploadPart input (.fail e),
      Event.AbortMultipartUpload out.Bucket out.Key out.UploadId res] ∧
    r.outcome = .returned res ∧ r.errChan = [res])


/-- The value `partLength` takes at the start of the loop body:
`if remaining < partLength { partLength = remaining }`. -/
def nextLength (st : LoopState) : Int :=
  if st.remaining < st.partLength then st.remaining else st.partLength

/-- The `UploadPartInput` the loop body builds in state `st`. -/
def partInput (out : CreateMultipartUploadOutput) (st : LoopState) : UploadPartInput :=
  { Body := nextLength st, ContentLength := nextLength st, Bucket := out.Bucket,
    Key := out.Key, UploadId := out.UploadId, PartNumber := st.partNumber + 1 }

/-- The list `k, k+1, ..., k+n-1`. -/
def intsFrom (k : Int) : Nat → List Int
  | 0 => []
  | n + 1 => k :: intsFrom (k + 1) n

/-- The part lengths the specification asks for: as many full parts as fit
into `size`, then the remainder if there is one. -/
def expectedLengths (size : Int) : List Int :=
  List.replicate (size / partSize).toNat partSize ++
    (if size % partSize = 0 then [] else [size % partSize])


/-- Recognises an `UploadPart` call that was answered with an error. -/
def Event.isFailedUpload : Event → Bool
  | .UploadPart _ (.fail _) => true
  | _ => false


/-- A sample part-upload failure. -/
def boom : GoError := ⟨"RequestTimeout: part upload failed", true⟩

/-- A sample cancellation failure. -/
def abortFailed : GoError := ⟨"NoSuchUpload: abort failed", true⟩

/-- The `UploadPartInput` of a full-size part with number `k` in the sample
worlds. -/
def sampleInput (path : String) (k : Int) : UploadPartInput :=
  { Body := partSize, ContentLength := partSize, Bucket := some "io", Key := some path,
    UploadId := some "upload-1", PartNumber := k }

/-- The events of a run for `path` in the sample worlds up to the moment the
upload of part 2 is answered: client, session, part 1 uploaded, refresh check. -/
def sampleHead (path : String) : List Event :=
  [Event.GetS3Client (.ok "io"),
   Event.CreateMultipartUpload "io" path "application/octet-stream"
     (.ok ⟨some "io", some path, some "upload-1"⟩),
   Event.RefreshAndStoreIfRequired (some false),
   Event.UploadPart (sampleInput path 1) (.ok (some "exxx")),
   Event.RefreshAndStoreIfRequired (some false)]

/-- The run of `multiPartUpload` for `a/b` in `failingWorld 2 boom abortErr`
with four parts to send. -/
def sampleFailedRun (abortErr : Option GoError) : Run :=
  { outcome := .returned abortErr,
    events := sampleHead "a/b" ++ [Event.UploadPart (sampleInput "a/b" 2) (.fail boom),
      Event.AbortMultipartUpload (some "io") (some "a/b") (some "upload-1") abortErr],
    errChan := [abortErr] }


/-- The run of `multiPartUpload` for `a/b` and `2 * partSize + 7` bytes in the
happy world: two full parts and a last part of 7 bytes. -/
def sampleHappyRun : Run :=
  { outcome := .returned none,
    events := sampleHead "a/b" ++
      [Event.UploadPart (sampleInput "a/b" 2) (.ok (some "exxxxx")),
       Event.RefreshAndStoreIfRequired (some false),
       Event.UploadPart { sampleInput "a/b" 3 with Body := 7, ContentLength := 7 }
         (.ok (some "exxxxxxx")),
       Event.CompleteMultipartUpload (some "io") (some "a/b") (some "upload-1")
         [⟨some "exxx", 1⟩, ⟨some "exxxxx", 2⟩, ⟨some "exxxxxxx", 3⟩] none],
    errChan := [] }


/-- The `ContentLength` values of the `UploadPart` calls of a run, in order. -/
def partLengths (r : Run) : List Int :=
  (uploads r.events).map (fun p => p.1.ContentLength)


/-- Tells whether the text `sep` occurs in `s` at offset `i` (counted in
characters). -/
def occursAt (sep s : String) (i : Nat) : Bool :=
  sep.data.isPrefixOf (s.data.drop i)

/-- A working keyring that holds `secret` for the sample record
(`https://cells.example.com`, `alice`). -/
def keyringWithSecret (secret : String) : Keyring :=
  (emptyKeyring.Set (getKeyringServiceName sampleCommon)
    (key "https://cells.example.com" "alice") secret).2

/-- A keyring on which every delete fails with `e`. -/
def keyringDeleteFails (e : GoError) : Keyring :=
  { emptyKeyring with DeleteErr := fun _ _ => some e }

/-- A sample keyring failure other than "not found". -/
def keyringLocked : GoError := ⟨"keyring is locked", false⟩


/-! ## Command-line configuration (`v2/cmd/root.go`) -/

/-- The package-level variables of package `cmd` that `getCecConfigFromEnv`
reads or writes; they hold the values of the flags and environment variables. -/
structure CmdVars where
  serverURL : String
  token : String
  authType : String
  login : String
  password : String
  skipKeyring : Bool
  skipVerify : Bool
  noCache : Bool
deriving DecidableEq, Repr

/-- The zero value of `CecConfig`, as obtained from `new(rest.CecConfig)`. -/
def zeroCecConfig : CecConfig :=
  { Url := "", User := "", Password := "", IdToken := "", RefreshToken := "",
    TokenExpiresAt := 0, SkipVerify := false, UseTokenCache := false, SkipKeyring := false,
    AuthType := "" }

/-- The function `getCecConfigFromEnv`: the record it returns and the
package-level variables afterwards (it assigns `authType`). -/
def getCecConfigFromEnv (c : Common) (g : CmdVars) : CecConfig × CmdVars :=
  let conf := zeroCecConfig
  let validConfViaContext := false
  let (conf, g, validConfViaContext) :=
    if 0 < g.serverURL.length then
      if 0 < g.token.length then
        -- PAT auth
        ({ conf with IdToken := g.token }, { g with authType := c.PatType }, true)
      else if 0 < g.login.length ∧ 0 < g.password.length then
        -- client auth
        ({ conf with Password := g.password, User := g.login },
          { g with authType := c.ClientAuthType }, true)
      else (conf, g, validConfViaContext)
    else (conf, g, validConfViaContext)
  if ¬ validConfViaContext then (conf, g)
  else
    ({ conf with
        Url := g.serverURL, AuthType := g.authType, SkipVerify := g.skipVerify,
        SkipKeyring := g.skipKeyring, UseTokenCache := !g.noCache }, g)

/-- Sample flag values: URL, token, login and password all given. -/
def sampleVars : CmdVars :=
  { serverURL := "https://cells.example.com", token := "pat-123", authType := "",
    login := "alice", password := "pw", skipKeyring := false, skipVerify := true,
    noCache := true }


/-- A keyring on which every write fails with `e`. -/
def keyringWriteFails (e : GoError) : Keyring :=
  { emptyKeyring with SetErr := fun _ _ => some e }


/-- Go's `strings.HasPrefix(s, prefix)`. -/
def stringsHasPrefix (s pfx : String) : Bool := pfx.data.isPrefixOf s.data

/-- What `handleLegagyParams` does to the outside: a call `os.Setenv(key, value)`
or a line written by `log.Printf`. -/
inductive EnvEffect where
  | Setenv (key value : String)
  | Printf (text : String)
deriving DecidableEq, Repr

/-- The `switch parts[0]` of `handleLegagyParams`, with `p0 = parts[0]` and
`p1 = parts[1]`. -/
def legacySwitch (p0 p1 : String) : List EnvEffect :=
  if p0 = "CELLS_CLIENT_TARGET_URL" then [EnvEffect.Setenv "CEC_URL" p1]
  else if p0 = "CELLS_CLIENT_TARGET_CLIENT_KEY" ∨ p0 = "CELLS_CLIENT_TARGET_CLIENT_SECRET" then
    [EnvEffect.Printf ("[WARNING] " ++ p0 ++
      " is not used anymore. Double check your configuration")]
  else if p0 = "CELLS_CLIENT_TARGET_USER_LOGIN" then [EnvEffect.Setenv "CEC_LOGIN" p1]
  else if p0 = "CELLS_CLIENT_TARGET_USER_PWD" then [EnvEffect.Setenv "CEC_PASSWORD" p1]
  else if p0 = "CELLS_CLIENT_TARGET_SKIP_VERIFY" then [EnvEffect.Setenv "CEC_SKIP_VERIFY" p1]
  else []

/-- The body of the loop of `handleLegagyParams` for one entry `pair` of
`os.Environ()`: the effects it has, in order. -/
def legacyEntry (pair : String) : List EnvEffect :=
  let prefOld := "CELLS_CLIENT_TARGET_"
  if stringsHasPrefix pair prefOld then
    match stringsSplit pair "=" with
    | [p0, p1] => if p1 ≠ "" then legacySwitch p0 p1 else []
    | _ => []
  else []

/-- The function `handleLegagyParams`, given the entries of `os.Environ()`:
the effects it has, in order. -/
def handleLegagyParams : List String → List EnvEffect
  | [] => []
  | pair :: rest => legacyEntry pair ++ handleLegagyParams rest


/-! ## Refresh guard (`v2/rest/clients.go`, lines 118-138) -/

/-- What a call of `RefreshAndStoreIfRequired` leaves behind: whether
`log.Fatal` ended the process, the value returned otherwise, the record `*c`,
the keyring, and the record handed to `json.MarshalIndent` for the config file
(`none` when nothing is written). -/
structure RefreshRun where
  exited : Bool
  refreshed : Bool
  conf : CecConfig
  keyring : Keyring
  written : Option CecConfig

/-- The function `RefreshAndStoreIfRequired` (the mutex apart). The error of
`ConfigToKeyring` is dropped by the code, as are those of `json.MarshalIndent`
and `ioutil.WriteFile`. -/
def RefreshAndStoreIfRequired (c : Common) (x : Collaborators) (kr : Keyring)
    (conf : CecConfig) : RefreshRun :=
  let answer := x.RefreshIfRequiredAnswer conf
  let conf1 := x.RefreshIfRequired conf
  match answer.2 with
  | some _ =>
    { exited := true, refreshed := answer.1, conf := conf1, keyring := kr, written := none }
  | none =>
    if answer.1 then
      -- Copy config as IdToken will be cleared
      let storeConfig := conf1
      let stored : StoreResult :=
        if ¬ conf1.SkipKeyring then ConfigToKeyring c kr storeConfig
        else { outcome := .returned none, conf := storeConfig, keyring := kr }
      { exited := false, refreshed := true, conf := conf1, keyring := stored.keyring,
        written := some stored.conf }
    else
      { exited := false, refreshed := false, conf := conf1, keyring := kr, written := none }

/-- Collaborators whose refresh always happens and succeeds without changing
the record. -/
def refreshingCollaborators : Collaborators :=
  { idleCollaborators with RefreshIfRequiredAnswer := fun _ => (true, none) }

/-! ## Legacy migration -/

/-- Modelled from the spec: the function `UpdateConfig` of package `rest`,
which `retrieveLegacyKey` calls and which is not among the sources. The
specification has the migrated legacy entry persisted "using the current
scheme", that is by `store(record)`, which "encodes the record's secret
material into a namespaced key derived from {endpoint, subject}, writes it to
the OS-level secret store, and clears the corresponding fields from the
record": this is what `ConfigToKeyring` does. -/
def UpdateConfig (c : Common) (kr : Keyring) (conf : CecConfig) : StoreResult :=
  ConfigToKeyring c kr conf

/-- Modelled from the spec: the collaborators of `retrieveLegacyKey`, with
`UpdateConfig` as the specification describes it; the effect `refresh` of
`RefreshIfRequired` on the record stays a parameter. -/
def specCollaborators (c : Common) (refresh : CecConfig → CecConfig) : Collaborators :=
  { RefreshIfRequired := refresh,
    RefreshIfRequiredAnswer := fun _ => (false, none),
    UpdateConfig := UpdateConfig c }

/-- The keyring reports no failure of its own for the entry (`service`,
`user`): reads, writes and deletes of it go to the map. -/
def Keyring.worksAt (kr : Keyring) (service user : String) : Prop :=
  kr.GetErr service user = none ∧ kr.SetErr service user = none ∧
    kr.DeleteErr service user = none

/-- A working keyring that holds `secret` under the legacy key
`key(url, legacyUser)` of the sample record and nothing else. -/
def legacyKeyring (legacyUser secret : String) : Keyring :=
  (emptyKeyring.Set (getKeyringServiceName sampleCommon)
    (key "https://cells.example.com" legacyUser) secret).2


/-- The function `ConfigFromKeyring` with the collaborators as the
specification describes them. -/
def ConfigFromKeyringSpec (c : Common) (refresh : CecConfig → CecConfig) (kr : Keyring)
    (conf : CecConfig) : StoreResult :=
  ConfigFromKeyring c (specCollaborators c refresh) kr conf

/-- The record `retrieveLegacyKey` hands to `RefreshIfRequired` after it has
decomposed a legacy oauth value into `a` and `b`. -/
def legacyOAuthRecord (c : Common) (conf : CecConfig) (a b : String) : CecConfig :=
  { conf with IdToken := a, RefreshToken := b, AuthType := c.OAuthType }


/-! # Properties -/

/-! ## Bounded part reader -/

/-- C2 fails on the code: on a fresh `partReader` with `partLength = 10` over a
stream of 100 bytes, a single `Read` with a 25-byte buffer returns `n = 15`, and
four `Read` calls with 3-byte buffers return 11 bytes in total; both totals
exceed `partLength`. -/
theorem partReader_read_total_exceeds_partLength :
    readCounts memReadSeeker (freshPartReader 100 10) [25] = [15] ∧
    (readCounts memReadSeeker (freshPartReader 100 10) [3, 3, 3, 3]).sum = 11 := by
  decide

/-- C3 fails on the code: with `cur = 0`, `partLength = 10` and a 15-byte
buffer the remaining budget is 10 bytes, yet `Read` hands the underlying stream
a buffer of 5 bytes (the overshoot `cur + len(p) - partLength`) and returns
those 5 bytes together with `io.EOF`. -/
theorem partReader_read_requests_overshoot :
    (partReader.Read memReadSeeker (freshPartReader 100 10)
        (List.replicate 15 0)).next.ReadSeeker.asked = [5] ∧
    (partReader.Read memReadSeeker (freshPartReader 100 10) (List.replicate 15 0)).n = 5 ∧
    (partReader.Read memReadSeeker (freshPartReader 100 10) (List.replicate 15 0)).err
      = some io_EOF ∧
    (partReader.Read memReadSeeker (freshPartReader 100 10) (List.replicate 15 0)).buf
      = [0, 1, 2, 3, 4, 0, 0, 0, 0, 0, 0, 0, 0, 0, 0] := by
  decide

/-! ## Multipart transfer engine -/

theorem partStep_stopped_shape (w : S3World) (out : CreateMultipartUploadOutput)
    (st : LoopState) (r : Run) (hnil : st.s3ClientNil = false)
    (h : partStep w out st = .stopped r) :
    ∃ body tail, r.events = st.events ++ body ++ tail ∧
      (∀ ev ∈ body, Event.benign ev = true) ∧ StopShape out r tail := by
  unfold partStep at h
  cases hr : w.RefreshAndStoreIfRequired st.events with
  | none =>
    rw [hr] at h
    simp only [StepExit.stopped.injEq] at h
    subst h
    exact ⟨[], _, by simp, by simp, Or.inl ⟨rfl, rfl, rfl⟩⟩
  | some refreshed =>
    rw [hr] at h
    simp only at h
    cases refreshed with
    | false =>
      simp only [hnil, Bool.false_eq_true, if_false] at h
      split at h
      · simp only [StepExit.stopped.injEq] at h
        subst h
        exact ⟨[Event.RefreshAndStoreIfRequired (some false)], _, List.append_assoc _ _ _,
          by simp [Event.benign], Or.inr (Or.inr ⟨_, _, _, rfl, rfl, rfl⟩)⟩
      · cases h
    | true =>
      simp only [if_true] at h
      split at h
      · rename_i hn
        simp only [StepExit.stopped.injEq] at h
        subst h
        split at hn
        · cases hn
        · rename_i e hg
          refine ⟨[Event.RefreshAndStoreIfRequired (some true)], [Event.GetS3Client (.fail e)],
            ?_, by simp [Event.benign], Or.inr (Or.inl ⟨e, rfl, rfl, rfl⟩)⟩
          simp [hg]
      · rename_i hn
        split at h
        · simp only [StepExit.stopped.injEq] at h
          subst h
          split at hn
          · rename_i b hg
            rw [hg]
            exact ⟨[Event.RefreshAndStoreIfRequired (some true), Event.GetS3Client (.ok b)], _,
              (List.append_assoc _ _ _).trans (congrArg (· ++ _) (List.append_assoc _ _ _)),
              by simp [Event.benign], Or.inr (Or.inr ⟨_, _, _, rfl, rfl, rfl⟩)⟩
          · simp at hn
        · cases h

theorem partStep_next_spec (w : S3World) (out : CreateMultipartUploadOutput)
    (st st1 : LoopState) (hnil : st.s3ClientNil = false)
    (h : partStep w out st = .next st1) :
    ∃ body etag,
      st1.events = st.events ++ body ++
        [Event.UploadPart (partInput out st) (.ok etag)] ∧
      (∀ ev ∈ body, Event.benign ev = true ∧ Event.isUploadPart ev = false) ∧
      st1.remaining = st.remaining - nextLength st ∧ st1.partLength = nextLength st ∧
      st1.partNumber = st.partNumber + 1 ∧
      st1.completedParts = st.completedParts ++ [⟨etag, st.partNumber + 1⟩] ∧
      st1.s3ClientNil = false := by
  unfold partStep at h
  cases hr : w.RefreshAndStoreIfRequired st.events with
  | none => rw [hr] at h; cases h
  | some refreshed =>
    rw [hr] at h
    simp only at h
    cases refreshed with
    | false =>
      simp only [hnil, Bool.false_eq_true, if_false] at h
      split at h
      · cases h
      · rename_i etag hu
        simp only [StepExit.next.injEq] at h
        subst h
        exact ⟨[Event.RefreshAndStoreIfRequired (some false)], etag, rfl,
          by simp [Event.benign, Event.isUploadPart], rfl, rfl, rfl, rfl, rfl⟩
    | true =>
      simp only [if_true] at h
      split at h
      · cases h
      · rename_i hn
        split at h
        · cases h
        · rename_i etag hu
          simp only [StepExit.next.injEq] at h
          subst h
          split at hn
          · rename_i b hg
            rw [hg]
            exact ⟨[Event.RefreshAndStoreIfRequired (some true), Event.GetS3Client (.ok b)], etag,
              congrArg (· ++ _) (List.append_assoc _ _ _),
              by simp [Event.benign, Event.isUploadPart], rfl, rfl, rfl, rfl, by simp [hg]⟩
          · simp at hn

theorem uploads_append (a b : List Event) : uploads (a ++ b) = uploads a ++ uploads b := by
  induction a with
  | nil => rfl
  | cons ev a ih => cases ev <;> simp [uploads, ih]

theorem uploads_eq_nil (l : List Event) (h : ∀ ev ∈ l, Event.isUploadPart ev = false) :
    uploads l = [] := by
  induction l with
  | nil => rfl
  | cons ev l ih =>
    have h1 := h ev (List.mem_cons_self _ _)
    have h2 := ih (fun e he => h e (List.mem_cons_of_mem _ he))
    cases ev <;> simp_all [uploads, Event.isUploadPart]

theorem partLoop_stopped_shape (w : S3World) (out : CreateMultipartUploadOutput) :
    ∀ (fuel : Nat) (st : LoopState) (r : Run), st.s3ClientNil = false →
      partLoop w out fuel st = some (.stopped r) →
      ∃ body tail, r.events = st.events ++ body ++ tail ∧
        (∀ ev ∈ body, Event.benign ev = true) ∧ StopShape out r tail := by
  intro fuel
  induction fuel with
  | zero => intro st r _ h; simp [partLoop] at h
  | succ fuel ih =>
    intro st r hnil h
    rw [partLoop] at h
    by_cases h0 : st.remaining = 0
    · simp [h0] at h
    · simp only [h0, if_false] at h
      cases hs : partStep w out st with
      | stopped r1 =>
        rw [hs] at h
        simp only [Option.some.injEq, LoopExit.stopped.injEq] at h
        subst h
        exact partStep_stopped_shape w out st r1 hnil hs
      | next st1 =>
        rw [hs] at h
        simp only at h
        obtain ⟨body0, etag, hev, hb0, -, -, -, -, hnil1⟩ := partStep_next_spec w out st st1 hnil hs
        obtain ⟨body, tail, hevr, hb, hshape⟩ := ih st1 r hnil1 h
        refine ⟨body0 ++ [Event.UploadPart (partInput out st) (.ok etag)] ++ body, tail, ?_, ?_, hshape⟩
        · rw [hevr, hev]; simp only [List.append_assoc]
        · intro ev hmem
          simp only [List.append_assoc, List.mem_append, List.mem_singleton, List.mem_cons,
            List.not_mem_nil, or_false] at hmem
          rcases hmem with hm | hm | hm
          · exact (hb0 ev hm).1
          · subst hm; rfl
          · exact hb ev hm

theorem intsFrom_length (k : Int) (n : Nat) : (intsFrom k n).length = n := by
  induction n generalizing k with
  | zero => rfl
  | succ n ih => simp [intsFrom, ih]

theorem partLoop_completed_spec (w : S3World) (out : CreateMultipartUploadOutput) :
    ∀ (fuel : Nat) (st st2 : LoopState), st.s3ClientNil = false →
      partLoop w out fuel st = some (.completed st2) →
      ∃ body newParts, st2.events = st.events ++ body ∧
        (∀ ev ∈ body, Event.benign ev = true) ∧ st2.s3ClientNil = false ∧
        st2.completedParts = st.completedParts ++ newParts ∧
        (uploads body).map (fun p => p.1.PartNumber) = intsFrom (st.partNumber + 1) newParts.length ∧
        newParts.map (fun cp => cp.PartNumber) = intsFrom (st.partNumber + 1) newParts.length ∧
        (uploads body).map Prod.snd = newParts.map (fun cp => Res.ok cp.ETag) := by
  intro fuel
  induction fuel with
  | zero => intro st st2 _ h; simp [partLoop] at h
  | succ fuel ih =>
    intro st st2 hnil h
    rw [partLoop] at h
    by_cases h0 : st.remaining = 0
    · simp only [h0, if_true, Option.some.injEq, LoopExit.completed.injEq] at h
      subst h
      exact ⟨[], [], by simp, by simp, hnil, by simp, rfl, rfl, rfl⟩
    · simp only [h0, if_false] at h
      cases hs : partStep w out st with
      | stopped r1 => rw [hs] at h; simp at h
      | next st1 =>
        rw [hs] at h
        simp only at h
        obtain ⟨body0, etag, hev, hb0, -, -, hnum, hparts, hnil1⟩ :=
          partStep_next_spec w out st st1 hnil hs
        obtain ⟨body, newParts, hev2, hb, hnil2, hparts2, hn1, hn2, hres⟩ := ih st1 st2 hnil1 h
        have hu0 : uploads body0 = [] := uploads_eq_nil body0 (fun ev he => (hb0 ev he).2)
        refine ⟨body0 ++ [Event.UploadPart (partInput out st) (.ok etag)] ++ body,
          ⟨etag, st.partNumber + 1⟩ :: newParts, ?_, ?_, hnil2, ?_, ?_, ?_, ?_⟩
        · rw [hev2, hev]; simp only [List.append_assoc]
        · intro ev hmem
          simp only [List.append_assoc, List.mem_append, List.mem_singleton, List.mem_cons,
            List.not_mem_nil, or_false] at hmem
          rcases hmem with hm | hm | hm
          · exact (hb0 ev hm).1
          · subst hm; rfl
          · exact hb ev hm
        · rw [hparts2, hparts]; simp
        · rw [hnum] at hn1
          simp [uploads_append, hu0, uploads, intsFrom, hn1, partInput]
        · rw [hnum] at hn2
          simp [intsFrom, hn2]
        · simp [uploads_append, hu0, uploads, hres]

theorem multiPartUpload_shape (w : S3World) (path : String) (size : Int) (r : Run)
    (h : multiPartUpload w path size = some r) :
    (∃ e, r.events = [Event.GetS3Client (.fail e)] ∧ r.outcome = .returned (some e) ∧
      r.errChan = [some e]) ∨
    (∃ b e, r.events = [Event.GetS3Client (.ok b),
        Event.CreateMultipartUpload b path "application/octet-stream" (.fail e)] ∧
      r.outcome = .returned (some e) ∧ r.errChan = [some e]) ∨
    (∃ b out body tail, r.events = [Event.GetS3Client (.ok b),
        Event.CreateMultipartUpload b path "application/octet-stream" (.ok out)] ++ body ++ tail ∧
      (∀ ev ∈ body, Event.benign ev = true) ∧
      (StopShape out r tail ∨
        ∃ parts res, tail = [Event.CompleteMultipartUpload out.Bucket out.Key out.UploadId
            parts res] ∧
          (uploads body).map (fun p => p.1.PartNumber) = intsFrom 1 parts.length ∧
          parts.map (fun cp => cp.PartNumber) = intsFrom 1 parts.length ∧
          (uploads body).map Prod.snd = parts.map (fun cp => Res.ok cp.ETag))) := by
  unfold multiPartUpload at h
  cases hg : w.GetS3Client [] with
  | fail e =>
    rw [hg] at h
    simp only [Option.some.injEq] at h
    subst h
    exact Or.inl ⟨e, rfl, rfl, rfl⟩
  | ok b =>
    rw [hg] at h
    simp only at h
    cases hc : w.CreateMultipartUpload [Event.GetS3Client (.ok b)] b path
        "application/octet-stream" with
    | fail e =>
      rw [hc] at h
      simp only [Option.some.injEq] at h
      subst h
      exact Or.inr (Or.inl ⟨b, e, rfl, rfl, rfl⟩)
    | ok out =>
      rw [hc] at h
      simp only at h
      refine Or.inr (Or.inr ?_)
      split at h
      · cases h
      · rename_i r1 hl
        simp only [Option.some.injEq] at h
        subst h
        obtain ⟨body, tail, hev, hb, hshape⟩ := partLoop_stopped_shape w out _ _ _ rfl hl
        exact ⟨b, out, body, tail, hev, hb, Or.inl hshape⟩
      · rename_i st2 hl
        obtain ⟨body, parts, hev, hb, hnil2, hparts, hn1, hn2, hres⟩ :=
          partLoop_completed_spec w out _ _ _ rfl hl
        simp only [List.nil_append, zero_add] at hparts hn1 hn2
        simp only [hnil2, Bool.false_eq_true, if_false] at h
        rw [hparts, hev] at h
        have hev3 : r.events = [Event.GetS3Client (.ok b),
            Event.CreateMultipartUpload b path "application/octet-stream" (.ok out)] ++ body ++
            [Event.CompleteMultipartUpload out.Bucket out.Key out.UploadId parts
              (w.CompleteMultipartUpload ([Event.GetS3Client (.ok b),
                Event.CreateMultipartUpload b path "application/octet-stream" (.ok out)] ++ body)
                out.Bucket out.Key out.UploadId parts)] := by
          split at h
          · split at h <;> (simp only [Option.some.injEq] at h; subst h; rfl)
          · simp only [Option.some.injEq] at h; subst h; rfl
        exact ⟨b, out, body, _, hev3, hb, Or.inr ⟨parts, _, rfl, hn1, hn2, hres⟩⟩

theorem split_at_failed_upload (A T pre post : List Event) (x : Event)
    (hA : ∀ ev ∈ A, Event.isFailedUpload ev = false) (hx : Event.isFailedUpload x = true)
    (h : A ++ T = pre ++ x :: post) : ∃ t1, pre = A ++ t1 ∧ T = t1 ++ x :: post := by
  rcases List.append_eq_append_iff.mp h with ⟨a1, h1, h2⟩ | ⟨c1, h1, h2⟩
  · exact ⟨a1, h1, h2⟩
  · cases c1 with
    | nil => exact ⟨[], by simpa using h1.symm, by simpa using h2.symm⟩
    | cons y c2 =>
      simp only [List.cons_append, List.cons.injEq] at h2
      have hy : y ∈ A := by rw [h1]; simp
      have := hA y hy
      rw [← h2.1, hx] at this
      cases this

theorem benign_not_failed (ev : Event) (h : Event.benign ev = true) :
    Event.isFailedUpload ev = false := by
  cases ev with
  | UploadPart input res => cases res <;> simp_all [Event.benign, Event.isFailedUpload]
  | _ => rfl

theorem failed_part_split (w : S3World) (path : String) (size : Int) (r : Run)
    (pre post : List Event) (input : UploadPartInput) (e : GoError)
    (hrun : multiPartUpload w path size = some r)
    (hsplit : r.events = pre ++ Event.UploadPart input (.fail e) :: post) :
    ∃ b out body res, pre = [Event.GetS3Client (.ok b),
        Event.CreateMultipartUpload b path "application/octet-stream" (.ok out)] ++ body ∧
      (∀ ev ∈ body, Event.benign ev = true) ∧
      post = [Event.AbortMultipartUpload out.Bucket out.Key out.UploadId res] ∧
      r.outcome = .returned res ∧ r.errChan = [res] := by
  rcases multiPartUpload_shape w path size r hrun with
    ⟨e0, hev, -, -⟩ | ⟨b, e0, hev, -, -⟩ | ⟨b, out, body, tail, hev, hb, hshape⟩
  · rw [hev] at hsplit
    rcases pre with _ | ⟨y, pre⟩ <;> simp at hsplit
  · rw [hev] at hsplit
    rcases pre with _ | ⟨y, _ | ⟨z, pre⟩⟩ <;> simp at hsplit
  · rw [hev] at hsplit
    have hA : ∀ ev ∈ [Event.GetS3Client (.ok b),
        Event.CreateMultipartUpload b path "application/octet-stream" (.ok out)] ++ body,
        Event.isFailedUpload ev = false := by
      intro ev hm
      simp only [List.cons_append, List.nil_append, List.mem_cons] at hm
      rcases hm with hm | hm | hm
      · subst hm; rfl
      · subst hm; rfl
      · exact benign_not_failed ev (hb ev hm)
    obtain ⟨t1, hpre, htail⟩ := split_at_failed_upload _ tail pre post
      (Event.UploadPart input (.fail e)) hA rfl hsplit
    rcases hshape with (⟨ht, -, -⟩ | ⟨e0, ht, -, -⟩ | ⟨inp, e0, res, ht, ho, hc⟩) | ⟨parts, res, ht, -⟩
    · rw [ht] at htail
      rcases t1 with _ | ⟨y, t1⟩ <;> simp at htail
    · rw [ht] at htail
      rcases t1 with _ | ⟨y, t1⟩ <;> simp at htail
    · rw [ht] at htail
      rcases t1 with _ | ⟨y, _ | ⟨z, t1⟩⟩ <;> simp at htail
      refine ⟨b, out, body, res, by simpa using hpre, hb, htail.2.symm, ho, hc⟩
    · rw [ht] at htail
      rcases t1 with _ | ⟨y, t1⟩ <;> simp at htail

/-- C4: whenever an `UploadPart` call of a run is answered with an error, the
events before it are the client lookup, the successful `CreateMultipartUpload`
and then only events that let the loop go on (so every earlier part succeeded),
and the only event after it is one `AbortMultipartUpload` carrying bucket, key
and upload id of the `CreateMultipartUpload` answer: the run contains exactly
that one abort call, no `UploadPart` call after the failed one and no
`CompleteMultipartUpload` call at all. -/
theorem multiPartUpload_part_failure_aborts_once (w : S3World) (path : String) (size : Int)
    (r : Run) (pre post : List Event) (input : UploadPartInput) (e : GoError)
    (hrun : multiPartUpload w path size = some r)
    (hsplit : r.events = pre ++ Event.UploadPart input (.fail e) :: post) :
    ∃ b out body res,
      pre = [Event.GetS3Client (.ok b),
        Event.CreateMultipartUpload b path "application/octet-stream" (.ok out)] ++ body ∧
      (∀ ev ∈ body, Event.benign ev = true) ∧
      post = [Event.AbortMultipartUpload out.Bucket out.Key out.UploadId res] ∧
      r.events.filter Event.isAbort =
        [Event.AbortMultipartUpload out.Bucket out.Key out.UploadId res] ∧
      post.filter Event.isUploadPart = [] ∧
      r.events.filter Event.isComplete = [] := by
  obtain ⟨b, out, body, res, hpre, hb, hpost, -, -⟩ :=
    failed_part_split w path size r pre post input e hrun hsplit
  have hfa : body.filter Event.isAbort = [] := by
    rw [List.filter_eq_nil_iff]
    intro ev hm
    have := hb ev hm
    cases ev <;> simp_all [Event.benign, Event.isAbort]
  have hfc : body.filter Event.isComplete = [] := by
    rw [List.filter_eq_nil_iff]
    intro ev hm
    have := hb ev hm
    cases ev <;> simp_all [Event.benign, Event.isComplete]
  refine ⟨b, out, body, res, hpre, hb, hpost, ?_, ?_, ?_⟩
  · rw [hsplit, hpre, hpost]
    simp [List.filter_cons, hfa, Event.isAbort]
  · rw [hpost]; rfl
  · rw [hsplit, hpre, hpost]
    simp [List.filter_cons, hfc, Event.isComplete]

/-- Witness for C4: part 2 of 4 fails in the sample world. -/
theorem multiPartUpload_part_failure_aborts_once_witness :
    multiPartUpload (failingWorld 2 boom none) "a/b" (3 * partSize + 7)
      = some (sampleFailedRun none) ∧
    ∃ b out body res,
      sampleHead "a/b" = [Event.GetS3Client (.ok b),
        Event.CreateMultipartUpload b "a/b" "application/octet-stream" (.ok out)] ++ body ∧
      (∀ ev ∈ body, Event.benign ev = true) ∧
      [Event.AbortMultipartUpload (some "io") (some "a/b") (some "upload-1") none]
        = [Event.AbortMultipartUpload out.Bucket out.Key out.UploadId res] ∧
      (sampleFailedRun none).events.filter Event.isAbort =
        [Event.AbortMultipartUpload out.Bucket out.Key out.UploadId res] ∧
      [Event.AbortMultipartUpload (some "io") (some "a/b") (some "upload-1") none].filter
        Event.isUploadPart = [] ∧
      (sampleFailedRun none).events.filter Event.isComplete = [] :=
  ⟨by decide,
   multiPartUpload_part_failure_aborts_once (failingWorld 2 boom none) "a/b"
     (3 * partSize + 7) (sampleFailedRun none) (sampleHead "a/b")
     [Event.AbortMultipartUpload (some "io") (some "a/b") (some "upload-1") none]
     (sampleInput "a/b" 2) boom (by decide) (by decide)⟩

/-- C5 fails on the code: when part 2 of 4 fails with `boom` and the
cancellation succeeds, `multiPartUpload` returns `nil` and sends `nil` on the
error channel; the triggering error is neither returned nor sent. -/
theorem multiPartUpload_returns_nil_after_abort :
    (multiPartUpload (failingWorld 2 boom none) "a/b" (3 * partSize + 7)).map
        (fun r => (r.outcome, r.errChan, r.events.drop 5))
      = some (Outcome.returned none, [none],
          [Event.UploadPart (sampleInput "a/b" 2) (.fail boom),
           Event.AbortMultipartUpload (some "io") (some "a/b") (some "upload-1") none]) := by
  decide

/-- C6 fails as stated: when part 2 of 4 fails with `boom` and the cancellation
fails with `abortFailed`, the error returned is `abortFailed`, a different
error, and `boom` is not among the values sent on the error channel. -/
theorem multiPartUpload_abort_error_replaces_part_error :
    (multiPartUpload (failingWorld 2 boom (some abortFailed)) "a/b" (3 * partSize + 7)).map
        (fun r => (r.outcome, r.errChan, r.events.drop 5))
      = some (Outcome.returned (some abortFailed), [some abortFailed],
          [Event.UploadPart (sampleInput "a/b" 2) (.fail boom),
           Event.AbortMultipartUpload (some "io") (some "a/b") (some "upload-1")
             (some abortFailed)]) ∧
    abortFailed ≠ boom ∧ some boom ∉ [some abortFailed] := by
  decide

/-- C6 as amended: when a part upload fails with `e1` and the cancellation that
follows fails with `e2`, it is the cancellation error `e2` that
`multiPartUpload` returns, and `e2` is the one value it sends on the error
channel. -/
theorem multiPartUpload_abort_failure_reported (w : S3World) (path : String) (size : Int)
    (r : Run) (pre : List Event) (input : UploadPartInput) (e1 e2 : GoError)
    (B K U : Option String)
    (hrun : multiPartUpload w path size = some r)
    (hsplit : r.events = pre ++ [Event.UploadPart input (.fail e1),
      Event.AbortMultipartUpload B K U (some e2)]) :
    r.outcome = .returned (some e2) ∧ r.errChan = [some e2] := by
  obtain ⟨b, out, body, res, -, -, hpost, ho, hc⟩ :=
    failed_part_split w path size r pre _ input e1 hrun hsplit
  simp only [List.cons.injEq, Event.AbortMultipartUpload.injEq, and_true] at hpost
  rw [ho, hc, ← hpost.2.2.2]
  exact ⟨rfl, rfl⟩

/-- Witness for the amended C6: part 2 of 4 fails and so does the abort. -/
theorem multiPartUpload_abort_failure_reported_witness :
    multiPartUpload (failingWorld 2 boom (some abortFailed)) "a/b" (3 * partSize + 7)
      = some (sampleFailedRun (some abortFailed)) ∧
    (sampleFailedRun (some abortFailed)).outcome = .returned (some abortFailed) ∧
    (sampleFailedRun (some abortFailed)).errChan = [some abortFailed] :=
  ⟨by decide,
   multiPartUpload_abort_failure_reported (failingWorld 2 boom (some abortFailed)) "a/b"
     (3 * partSize + 7) (sampleFailedRun (some abortFailed)) (sampleHead "a/b")
     (sampleInput "a/b" 2) boom abortFailed (some "io") (some "a/b") (some "upload-1")
     (by decide) (by decide)⟩

theorem benign_not_complete (ev : Event) (h : Event.benign ev = true) :
    Event.isComplete ev = false := by
  cases ev <;> simp_all [Event.benign, Event.isComplete]

/-- C10: whenever a run submits `CompleteMultipartUpload` with the list
`parts` (as every successful upload does), the part numbers passed to the
`UploadPart` calls of the run are `1, 2, ..., n` in this order, where `n` is the
length of `parts`; the part numbers in `parts` are `1, 2, ..., n` in this order;
and the answer of the i-th `UploadPart` call is the success carrying the `ETag`
of the i-th entry of `parts`. -/
theorem multiPartUpload_completed_parts (w : S3World) (path : String) (size : Int)
    (r : Run) (B K U : Option String) (parts : List CompletedPart) (res : Option GoError)
    (hrun : multiPartUpload w path size = some r)
    (hdone : Event.CompleteMultipartUpload B K U parts res ∈ r.events) :
    (uploads r.events).map (fun p => p.1.PartNumber) = intsFrom 1 parts.length ∧
    parts.map (fun cp => cp.PartNumber) = intsFrom 1 parts.length ∧
    (uploads r.events).map Prod.snd = parts.map (fun cp => Res.ok cp.ETag) := by
  rcases multiPartUpload_shape w path size r hrun with
    ⟨e0, hev, -, -⟩ | ⟨b, e0, hev, -, -⟩ | ⟨b, out, body, tail, hev, hb, hshape⟩
  · rw [hev] at hdone; simp at hdone
  · rw [hev] at hdone; simp at hdone
  · rw [hev] at hdone
    have hbody : Event.CompleteMultipartUpload B K U parts res ∉ body := by
      intro hm
      have := benign_not_complete _ (hb _ hm)
      simp [Event.isComplete] at this
    simp only [List.cons_append, List.nil_append, List.mem_cons, List.mem_append, hbody,
      false_or, reduceCtorEq] at hdone
    rcases hshape with (⟨ht, -, -⟩ | ⟨e0, ht, -, -⟩ | ⟨inp, e0, res0, ht, -, -⟩) |
      ⟨parts0, res0, ht, hn1, hn2, hres⟩
    · rw [ht] at hdone; simp at hdone
    · rw [ht] at hdone; simp at hdone
    · rw [ht] at hdone; simp at hdone
    · rw [ht] at hdone
      simp only [List.mem_singleton, Event.CompleteMultipartUpload.injEq] at hdone
      obtain ⟨-, -, -, hp, -⟩ := hdone
      subst hp
      have hu : uploads r.events = uploads body := by
        rw [hev, ht]
        simp [uploads_append, uploads]
      rw [hu]
      exact ⟨hn1, hn2, hres⟩

/-- Witness for C10: three parts in the happy world. -/
theorem multiPartUpload_completed_parts_witness :
    multiPartUpload happyWorld "a/b" (2 * partSize + 7) = some sampleHappyRun ∧
    (uploads sampleHappyRun.events).map (fun p => p.1.PartNumber) = intsFrom 1 3 ∧
    [(⟨some "exxx", 1⟩ : CompletedPart), ⟨some "exxxxx", 2⟩, ⟨some "exxxxxxx", 3⟩].map
      (fun cp => cp.PartNumber) = intsFrom 1 3 ∧
    (uploads sampleHappyRun.events).map Prod.snd =
      [(⟨some "exxx", 1⟩ : CompletedPart), ⟨some "exxxxx", 2⟩, ⟨some "exxxxxxx", 3⟩].map
        (fun cp => Res.ok cp.ETag) :=
  ⟨by decide,
   multiPartUpload_completed_parts happyWorld "a/b" (2 * partSize + 7) sampleHappyRun
     (some "io") (some "a/b") (some "upload-1")
     [⟨some "exxx", 1⟩, ⟨some "exxxxx", 2⟩, ⟨some "exxxxxxx", 3⟩] none
     (by decide) (by decide)⟩

theorem partStep_next_of_ok (w : S3World) (out : CreateMultipartUploadOutput) (st : LoopState)
    (hnil : st.s3ClientNil = false)
    (hClient : ∀ h e, w.GetS3Client h ≠ .fail e)
    (hRefresh : ∀ h, w.RefreshAndStoreIfRequired h ≠ none)
    (hUpload : ∀ h input e, w.UploadPart h input ≠ .fail e) :
    ∃ st1, partStep w out st = .next st1 := by
  cases hs : partStep w out st with
  | next st1 => exact ⟨st1, rfl⟩
  | stopped r =>
    exfalso
    unfold partStep at hs
    cases hr : w.RefreshAndStoreIfRequired st.events with
    | none => exact hRefresh _ hr
    | some refreshed =>
      rw [hr] at hs
      simp only at hs
      cases refreshed with
      | false =>
        simp only [hnil, Bool.false_eq_true, if_false] at hs
        split at hs
        · rename_i e1 hu
          exact hUpload _ _ _ hu
        · cases hs
      | true =>
        simp only [if_true] at hs
        split at hs
        · rename_i hn
          split at hn
          · cases hn
          · rename_i e hg
            exact hClient _ _ hg
        · split at hs
          · rename_i e1 hu
            exact hUpload _ _ _ hu
          · cases hs

theorem partLoop_completes_of_ok (w : S3World) (out : CreateMultipartUploadOutput)
    (hClient : ∀ h e, w.GetS3Client h ≠ .fail e)
    (hRefresh : ∀ h, w.RefreshAndStoreIfRequired h ≠ none)
    (hUpload : ∀ h input e, w.UploadPart h input ≠ .fail e) :
    ∀ (fuel : Nat) (st : LoopState), st.s3ClientNil = false →
      (st.remaining = 0 ∨ 0 < st.partLength) → 0 ≤ st.remaining → st.remaining.toNat < fuel →
      ∃ st2, partLoop w out fuel st = some (.completed st2) := by
  intro fuel
  induction fuel with
  | zero => intro st _ _ _ h; omega
  | succ fuel ih =>
    intro st hnil hpl hrem hfuel
    rw [partLoop]
    by_cases h0 : st.remaining = 0
    · exact ⟨st, by simp [h0]⟩
    · simp only [h0, if_false]
      obtain ⟨st1, hs⟩ := partStep_next_of_ok w out st hnil hClient hRefresh hUpload
      rw [hs]
      simp only
      obtain ⟨-, -, -, -, hr1, hp1, -, -, hnil1⟩ := partStep_next_spec w out st st1 hnil hs
      have hpos : 0 < st.partLength := by
        rcases hpl with h | h
        · exact absurd h h0
        · exact h
      unfold nextLength at hr1 hp1
      apply ih st1 hnil1
      · split at hp1 <;> omega
      · split at hr1 <;> omega
      · split at hr1 <;> omega

theorem expectedLengths_step (rem : Int) (h : partSize ≤ rem) :
    expectedLengths rem = partSize :: expectedLengths (rem - partSize) := by
  unfold expectedLengths partSize
  have h1 : (rem / (50 * 1024 * 1024)).toNat
      = ((rem - 50 * 1024 * 1024) / (50 * 1024 * 1024)).toNat + 1 := by
    unfold partSize at h
    omega
  have h2 : rem % (50 * 1024 * 1024) = (rem - 50 * 1024 * 1024) % (50 * 1024 * 1024) := by
    omega
  rw [h1, h2, List.replicate_succ]
  rfl

theorem expectedLengths_last (rem : Int) (h0 : 0 < rem) (h : rem < partSize) :
    expectedLengths rem = [rem] := by
  unfold expectedLengths
  unfold partSize at h ⊢
  have h1 : (rem / (50 * 1024 * 1024)).toNat = 0 := by omega
  have h2 : rem % (50 * 1024 * 1024) = rem := by omega
  have h3 : rem ≠ 0 := by omega
  rw [h1, h2]
  simp [h3]

theorem expectedLengths_zero : expectedLengths 0 = [] := by
  decide

theorem partLoop_lengths (w : S3World) (out : CreateMultipartUploadOutput) :
    ∀ (fuel : Nat) (st st2 : LoopState), st.s3ClientNil = false →
      st.partLength = partSize → 0 ≤ st.remaining →
      partLoop w out fuel st = some (.completed st2) →
      ∃ body, st2.events = st.events ++ body ∧
        (uploads body).map (fun p => p.1.ContentLength) = expectedLengths st.remaining := by
  intro fuel
  induction fuel with
  | zero => intro st st2 _ _ _ h; simp [partLoop] at h
  | succ fuel ih =>
    intro st st2 hnil hpl hrem h
    rw [partLoop] at h
    by_cases h0 : st.remaining = 0
    · simp only [h0, if_true, Option.some.injEq, LoopExit.completed.injEq] at h
      subst h
      exact ⟨[], by simp, by rw [h0, expectedLengths_zero]; rfl⟩
    · simp only [h0, if_false] at h
      cases hs : partStep w out st with
      | stopped r1 => rw [hs] at h; simp at h
      | next st1 =>
        rw [hs] at h
        simp only at h
        obtain ⟨body0, etag, hev, hb0, hr1, hp1, -, -, hnil1⟩ :=
          partStep_next_spec w out st st1 hnil hs
        have hu0 : uploads body0 = [] := uploads_eq_nil body0 (fun ev he => (hb0 ev he).2)
        by_cases hlt : st.remaining < st.partLength
        · -- last, shorter part
          have hn : nextLength st = st.remaining := by simp [nextLength, hlt]
          rw [hn] at hr1
          have hz : st1.remaining = 0 := by omega
          cases fuel with
          | zero => simp [partLoop] at h
          | succ fuel =>
            rw [partLoop] at h
            simp only [hz, if_true, Option.some.injEq, LoopExit.completed.injEq] at h
            subst h
            refine ⟨body0 ++ [Event.UploadPart (partInput out st) (.ok etag)], ?_, ?_⟩
            · rw [hev]; simp only [List.append_assoc]
            · rw [expectedLengths_last st.remaining (by omega) (by omega)]
              simp [uploads_append, hu0, uploads, partInput, hn]
        · have hn : nextLength st = partSize := by
            unfold nextLength
            rw [if_neg hlt, hpl]
          rw [hn] at hr1 hp1
          obtain ⟨body, hev2, hlen⟩ := ih st1 st2 hnil1 hp1 (by omega) h
          refine ⟨body0 ++ [Event.UploadPart (partInput out st) (.ok etag)] ++ body, ?_, ?_⟩
          · rw [hev2, hev]; simp only [List.append_assoc]
          · rw [expectedLengths_step st.remaining (by omega), ← hr1, ← hlen]
            simp [uploads_append, hu0, uploads, partInput, hn]

theorem partLoop_terminates (w : S3World) (out : CreateMultipartUploadOutput) :
    ∀ (fuel : Nat) (st : LoopState), st.s3ClientNil = false →
      (st.remaining = 0 ∨ 0 < st.partLength) → st.remaining.natAbs < fuel →
      ∃ ex, partLoop w out fuel st = some ex := by
  intro fuel
  induction fuel with
  | zero => intro st _ _ h; omega
  | succ fuel ih =>
    intro st hnil hpl hfuel
    rw [partLoop]
    by_cases h0 : st.remaining = 0
    · exact ⟨.completed st, by simp [h0]⟩
    · simp only [h0, if_false]
      cases hs : partStep w out st with
      | stopped r => exact ⟨_, rfl⟩
      | next st1 =>
        simp only
        obtain ⟨-, -, -, -, hr1, hp1, -, -, hnil1⟩ := partStep_next_spec w out st st1 hnil hs
        have hpos : 0 < st.partLength := by
          rcases hpl with h | h
          · exact absurd h h0
          · exact h
        unfold nextLength at hr1 hp1
        apply ih st1 hnil1
        · split at hp1 <;> omega
        · split at hr1 <;> omega

/-- The function `multiPartUpload` always ends: the fuel handed to the part
loop is never used up, whatever the collaborators answer and whatever the size. -/
theorem multiPartUpload_returns (w : S3World) (path : String) (size : Int) :
    ∃ r, multiPartUpload w path size = some r := by
  unfold multiPartUpload
  cases w.GetS3Client [] with
  | fail e => exact ⟨_, rfl⟩
  | ok b =>
    simp only
    cases w.CreateMultipartUpload [Event.GetS3Client (.ok b)] b path
        "application/octet-stream" with
    | fail e => exact ⟨_, rfl⟩
    | ok out =>
      simp only
      obtain ⟨ex, hex⟩ := partLoop_terminates w out (size.natAbs + 1)
        { curr := 0, remaining := size, partLength := partSize, partNumber := 0,
          completedParts := [], s3ClientNil := false,
          events := [Event.GetS3Client (.ok b)] ++
            [Event.CreateMultipartUpload b path "application/octet-stream" (.ok out)] }
        rfl (Or.inr (show (0 : Int) < partSize by decide)) (by simp)
      rw [hex]
      cases ex with
      | stopped r => exact ⟨_, rfl⟩
      | completed st =>
        simp only
        split
        · exact ⟨_, rfl⟩
        · split
          · split <;> exact ⟨_, rfl⟩
          · exact ⟨_, rfl⟩

theorem multiPartUpload_of_completed (w : S3World) (path : String) (size : Int) (b : String)
    (out : CreateMultipartUploadOutput) (st2 : LoopState)
    (hg : w.GetS3Client [] = .ok b)
    (hc : w.CreateMultipartUpload [Event.GetS3Client (.ok b)] b path
      "application/octet-stream" = .ok out)
    (hl : partLoop w out (size.natAbs + 1)
      { curr := 0, remaining := size, partLength := partSize, partNumber := 0,
        completedParts := [], s3ClientNil := false,
        events := [Event.GetS3Client (.ok b)] ++
          [Event.CreateMultipartUpload b path "application/octet-stream" (.ok out)] }
      = some (.completed st2))
    (hnil : st2.s3ClientNil = false) :
    ∃ r res, multiPartUpload w path size = some r ∧
      r.events = st2.events ++ [Event.CompleteMultipartUpload out.Bucket out.Key out.UploadId
        st2.completedParts res] := by
  unfold multiPartUpload
  rw [hg]
  simp only
  rw [hc]
  simp only
  rw [hl]
  simp only [hnil, Bool.false_eq_true, if_false]
  split
  · split <;> exact ⟨_, _, rfl, rfl⟩
  · exact ⟨_, _, rfl, rfl⟩

theorem expectedLengths_length (S : Int) (hS : 0 ≤ S) :
    ((expectedLengths S).length : Int) = (S + partSize - 1) / partSize := by
  unfold expectedLengths partSize
  simp only [List.length_append, List.length_replicate]
  split <;> simp <;> omega

theorem expectedLengths_sum (S : Int) (hS : 0 ≤ S) : (expectedLengths S).sum = S := by
  unfold expectedLengths partSize
  simp only [List.sum_append, List.sum_replicate, nsmul_eq_mul]
  split
  · simp only [List.sum_nil, add_zero]
    push_cast
    omega
  · simp only [List.sum_cons, List.sum_nil, add_zero]
    push_cast
    omega

theorem expectedLengths_bounds (S : Int) :
    ∀ l ∈ expectedLengths S, 0 < l ∧ l ≤ partSize := by
  intro l hl
  unfold expectedLengths at hl
  rw [List.mem_append] at hl
  rcases hl with hl | hl
  · rw [List.eq_of_mem_replicate hl]
    decide
  · split at hl
    · simp at hl
    · simp only [List.mem_singleton] at hl
      subst hl
      unfold partSize at *
      omega

theorem expectedLengths_dropLast (S : Int) :
    ∀ l ∈ (expectedLengths S).dropLast, l = partSize := by
  intro l hl
  unfold expectedLengths at hl
  split at hl
  · rw [List.append_nil] at hl
    exact List.eq_of_mem_replicate (List.mem_of_mem_dropLast hl)
  · rw [List.dropLast_concat] at hl
    exact List.eq_of_mem_replicate hl

/-- C1: for every total size `S ≥ 0`, when no collaborator call fails before
completion (every `UploadPart` call succeeds, as do the client lookups, the
session creation and the refresh checks), `multiPartUpload` ends, having made
the client lookup, the session creation, then the events of the part loop, then
`CompleteMultipartUpload`. The number of `UploadPart` calls is `ceil(S / P)` for
`P = partSize` = 50 MiB, written `(S + P - 1) / P`, and as many parts are
submitted for completion; the `ContentLength` values sum to `S`; each is `> 0`
and `≤ P`; all but the last equal `P`. When `S = 0` the loop makes no call and
the session is completed with an empty part list. -/
theorem multiPartUpload_parts_cover_size (w : S3World) (path : String) (S : Int)
    (hS : 0 ≤ S)
    (hClient : ∀ h e, w.GetS3Client h ≠ .fail e)
    (hCreate : ∀ h b k c e, w.CreateMultipartUpload h b k c ≠ .fail e)
    (hRefresh : ∀ h, w.RefreshAndStoreIfRequired h ≠ none)
    (hUpload : ∀ h input e, w.UploadPart h input ≠ .fail e) :
    ∃ r b out body parts res,
      multiPartUpload w path S = some r ∧
      r.events = [Event.GetS3Client (.ok b),
          Event.CreateMultipartUpload b path "application/octet-stream" (.ok out)] ++ body ++
        [Event.CompleteMultipartUpload out.Bucket out.Key out.UploadId parts res] ∧
      ((uploads r.events).length : Int) = (S + partSize - 1) / partSize ∧
      parts.length = (uploads r.events).length ∧
      (partLengths r).sum = S ∧
      (∀ l ∈ partLengths r, 0 < l ∧ l ≤ partSize) ∧
      (∀ l ∈ (partLengths r).dropLast, l = partSize) ∧
      (S = 0 → body = [] ∧ parts = []) := by
  cases hg : w.GetS3Client [] with
  | fail e => exact absurd hg (hClient _ _)
  | ok b =>
    cases hc : w.CreateMultipartUpload [Event.GetS3Client (.ok b)] b path
        "application/octet-stream" with
    | fail e => exact absurd hc (hCreate _ _ _ _ _)
    | ok out =>
      obtain ⟨st2, hl⟩ := partLoop_completes_of_ok w out hClient hRefresh hUpload
        (S.natAbs + 1)
        { curr := 0, remaining := S, partLength := partSize, partNumber := 0,
          completedParts := [], s3ClientNil := false,
          events := [Event.GetS3Client (.ok b)] ++
            [Event.CreateMultipartUpload b path "application/octet-stream" (.ok out)] }
        rfl (Or.inr (show (0 : Int) < partSize by decide)) hS (by simp only; omega)
      obtain ⟨body, parts, hev, -, hnil2, hparts, hn1, -, -⟩ :=
        partLoop_completed_spec w out _ _ _ rfl hl
      obtain ⟨body1, hev1, hlen⟩ := partLoop_lengths w out _ _ _ rfl rfl hS hl
      have hbb : body1 = body := List.append_cancel_left (hev1.symm.trans hev)
      subst hbb
      simp only [List.nil_append] at hparts
      simp only at hlen
      obtain ⟨r, res, hrun, hevr⟩ := multiPartUpload_of_completed w path S b out st2 hg hc hl hnil2
      have hu : uploads r.events = uploads body1 := by
        rw [hevr, hev]
        simp [uploads_append, uploads]
      have hpl : partLengths r = expectedLengths S := by
        unfold partLengths
        rw [hu, hlen]
      have hcount : (uploads r.events).length = (expectedLengths S).length := by
        rw [hu, ← hlen, List.length_map]
      have hpn : parts.length = (uploads body1).length := by
        have := congrArg List.length hn1
        rw [List.length_map, intsFrom_length] at this
        exact this.symm
      refine ⟨r, b, out, body1, parts, res, hrun, ?_, ?_, ?_, ?_, ?_, ?_, ?_⟩
      · rw [hevr, hev, hparts]
        rfl
      · rw [hcount]
        exact expectedLengths_length S hS
      · rw [hu]
        exact hpn
      · rw [hpl]
        exact expectedLengths_sum S hS
      · rw [hpl]
        exact expectedLengths_bounds S
      · rw [hpl]
        exact expectedLengths_dropLast S
      · intro h0
        subst h0
        rw [partLoop] at hl
        simp only [if_true, Option.some.injEq, LoopExit.completed.injEq] at hl
        subst hl
        simp only at hev hparts
        constructor
        · have hnil : ([Event.GetS3Client (.ok b)] ++
              [Event.CreateMultipartUpload b path "application/octet-stream" (.ok out)]) ++ []
              = ([Event.GetS3Client (.ok b)] ++
              [Event.CreateMultipartUpload b path "application/octet-stream" (.ok out)]) ++
                body1 := by
            simpa using hev
          exact (List.append_cancel_left hnil).symm
        · exact hparts.symm

/-- Witness for C1: `2 * partSize + 7` bytes in the happy world. -/
theorem multiPartUpload_parts_cover_size_witness :
    (0 : Int) ≤ 2 * partSize + 7 ∧
    ∃ r b out body parts res,
      multiPartUpload happyWorld "a/b" (2 * partSize + 7) = some r ∧
      r.events = [Event.GetS3Client (.ok b),
          Event.CreateMultipartUpload b "a/b" "application/octet-stream" (.ok out)] ++ body ++
        [Event.CompleteMultipartUpload out.Bucket out.Key out.UploadId parts res] ∧
      ((uploads r.events).length : Int) = (2 * partSize + 7 + partSize - 1) / partSize ∧
      parts.length = (uploads r.events).length ∧
      (partLengths r).sum = 2 * partSize + 7 ∧
      (∀ l ∈ partLengths r, 0 < l ∧ l ≤ partSize) ∧
      (∀ l ∈ (partLengths r).dropLast, l = partSize) ∧
      (2 * partSize + 7 = 0 → body = [] ∧ parts = []) :=
  ⟨by decide,
   multiPartUpload_parts_cover_size happyWorld "a/b" (2 * partSize + 7) (by decide)
     (fun _ _ h => Res.noConfusion h) (fun _ _ _ _ _ h => Res.noConfusion h)
     (fun _ h => Option.noConfusion h) (fun _ _ _ h => Res.noConfusion h)⟩

/-! ## Credential store -/

/-- C8: for a record whose `AuthType` is one of the three auth kinds, when
`ConfigToKeyring` returns no error the keyring holds, under the service name
and the key `Url + "::" + User`, the value `IdToken + "__//__" + RefreshToken`
for oauth, the bare `IdToken` for a personal access token and the bare
`Password` for client auth; and the record afterwards is the record before
with exactly the secret fields of its kind emptied. -/
theorem ConfigToKeyring_stores_and_clears (c : Common) (kr : Keyring) (conf : CecConfig)
    (hkind : conf.AuthType = c.PatType ∨ conf.AuthType = c.OAuthType ∨
      conf.AuthType = c.ClientAuthType)
    (hok : (ConfigToKeyring c kr conf).outcome = .returned none) :
    (ConfigToKeyring c kr conf).keyring.secrets (getKeyringServiceName c)
        (conf.Url ++ "::" ++ conf.User)
      = some (if conf.AuthType = c.OAuthType then conf.IdToken ++ "__//__" ++ conf.RefreshToken
          else if conf.AuthType = c.PatType then conf.IdToken else conf.Password) ∧
    (ConfigToKeyring c kr conf).conf
      = (if conf.AuthType = c.OAuthType then { conf with IdToken := "", RefreshToken := "" }
          else if conf.AuthType = c.PatType then { conf with IdToken := "" }
          else { conf with Password := "" }) := by
  obtain ⟨h12, h13, h23⟩ := c.distinct
  have h21 : ¬ c.OAuthType = c.PatType := fun h => h12 h.symm
  have h31 : ¬ c.ClientAuthType = c.PatType := fun h => h13 h.symm
  have h32 : ¬ c.ClientAuthType = c.OAuthType := fun h => h23 h.symm
  have hkey : conf.Url ++ "::" ++ conf.User = key conf.Url conf.User := rfl
  rw [hkey]
  unfold ConfigToKeyring Keyring.Set at *
  cases hs : kr.SetErr (getKeyringServiceName c) (key conf.Url conf.User) with
  | some e =>
    rcases hkind with hk | hk | hk <;> simp [hs, hk, h12, h21, h31, h32] at hok
  | none =>
    rcases hkind with hk | hk | hk <;> simp [hs, hk, h12, h21, h31, h32, value, valueSep]

/-- Witness for C8: an oauth record stored into an empty working keyring. -/
theorem ConfigToKeyring_stores_and_clears_witness :
    (ConfigToKeyring sampleCommon emptyKeyring (sampleConf "OAuth2" "tok" "ref" "")).keyring.secrets
        "com.pydio.cells-client" "https://cells.example.com::alice" = some "tok__//__ref" ∧
    (ConfigToKeyring sampleCommon emptyKeyring (sampleConf "OAuth2" "tok" "ref" "")).conf
      = sampleConf "OAuth2" "" "" "" :=
  ConfigToKeyring_stores_and_clears sampleCommon emptyKeyring (sampleConf "OAuth2" "tok" "ref" "")
    (Or.inr (Or.inl rfl)) rfl

/-- C9: `ClearKeyring` returns no error when the keyring has no entry under
`key(Url, User)` (the delete then reports "secret not found in keyring");
when the entry exists it removes it and returns no error; and when the delete
fails with any error whose text is not "secret not found in keyring" it
returns that error unchanged. The record is never changed. -/
theorem ClearKeyring_spec (c : Common) (kr : Keyring) (conf : CecConfig) :
    (kr.DeleteErr (getKeyringServiceName c) (key conf.Url conf.User) = none →
      kr.secrets (getKeyringServiceName c) (key conf.Url conf.User) = none →
      (kr.Delete (getKeyringServiceName c) (key conf.Url conf.User)).1 = some ErrNotFound ∧
      (ClearKeyring c kr conf).outcome = .returned none) ∧
    (∀ v, kr.DeleteErr (getKeyringServiceName c) (key conf.Url conf.User) = none →
      kr.secrets (getKeyringServiceName c) (key conf.Url conf.User) = some v →
      (ClearKeyring c kr conf).outcome = .returned none ∧
      (ClearKeyring c kr conf).keyring.secrets (getKeyringServiceName c)
        (key conf.Url conf.User) = none) ∧
    (∀ e, kr.DeleteErr (getKeyringServiceName c) (key conf.Url conf.User) = some e →
      e.text ≠ "secret not found in keyring" →
      (ClearKeyring c kr conf).outcome = .returned (some e)) ∧
    (ClearKeyring c kr conf).conf = conf := by
  refine ⟨?_, ?_, ?_, ?_⟩
  · intro hd hs
    simp [ClearKeyring, Keyring.Delete, hd, hs, ErrNotFound]
  · intro v hd hs
    simp [ClearKeyring, Keyring.Delete, hd, hs]
  · intro e hd ht
    simp [ClearKeyring, Keyring.Delete, hd, ht]
  · unfold ClearKeyring
    split
    · split <;> rfl
    · rfl

/-- Witness for C9: no entry, an entry, and a locked keyring. -/
theorem ClearKeyring_spec_witness :
    ((emptyKeyring.Delete (getKeyringServiceName sampleCommon)
        (key "https://cells.example.com" "alice")).1 = some ErrNotFound ∧
      (ClearKeyring sampleCommon emptyKeyring (sampleConf "OAuth2" "" "" "")).outcome
        = .returned none) ∧
    ((ClearKeyring sampleCommon (keyringWithSecret "tok__//__ref")
        (sampleConf "OAuth2" "" "" "")).outcome = .returned none ∧
      (ClearKeyring sampleCommon (keyringWithSecret "tok__//__ref")
        (sampleConf "OAuth2" "" "" "")).keyring.secrets (getKeyringServiceName sampleCommon)
        (key "https://cells.example.com" "alice") = none) ∧
    (ClearKeyring sampleCommon (keyringDeleteFails keyringLocked)
      (sampleConf "OAuth2" "" "" "")).outcome = .returned (some keyringLocked) :=
  ⟨(ClearKeyring_spec sampleCommon emptyKeyring (sampleConf "OAuth2" "" "" "")).1 rfl rfl,
   (ClearKeyring_spec sampleCommon (keyringWithSecret "tok__//__ref")
      (sampleConf "OAuth2" "" "" "")).2.1 "tok__//__ref" rfl (by decide),
   (ClearKeyring_spec sampleCommon (keyringDeleteFails keyringLocked)
      (sampleConf "OAuth2" "" "" "")).2.2.1 keyringLocked rfl (by decide)⟩

theorem splitFrom_scan (sep : List Char) :
    ∀ (a acc t : List Char),
      (∀ i, i < a.length → sep.isPrefixOf ((a ++ t).drop i) = false) →
      splitFrom sep 0 acc (a ++ t) = splitFrom sep 0 (a.reverse ++ acc) t := by
  intro a
  induction a with
  | nil => intro acc t _; rfl
  | cons ch a ih =>
    intro acc t h
    have h0 := h 0 (by simp)
    simp only [List.drop_zero, List.cons_append] at h0
    have hstep : splitFrom sep 0 acc (ch :: (a ++ t)) = splitFrom sep 0 (ch :: acc) (a ++ t) := by
      rw [splitFrom]
      simp [h0]
    rw [List.cons_append, hstep, ih (ch :: acc) t]
    · simp
    · intro i hi
      have := h (i + 1) (by simp; omega)
      simpa using this

theorem splitFrom_skip (sep : List Char) :
    ∀ (xs acc t : List Char), splitFrom sep xs.length acc (xs ++ t) = splitFrom sep 0 acc t := by
  intro xs
  induction xs with
  | nil => intro acc t; rfl
  | cons y xs ih =>
    intro acc t
    simp only [List.length_cons, List.cons_append]
    rw [splitFrom]
    exact ih acc t

theorem splitFrom_join (d : Char) (sep1 a b : List Char)
    (ha : ∀ i, i < a.length → (d :: sep1).isPrefixOf ((a ++ (d :: sep1 ++ b)).drop i) = false)
    (hb : ∀ i, i < b.length → (d :: sep1).isPrefixOf (b.drop i) = false) :
    splitFrom (d :: sep1) 0 [] (a ++ (d :: sep1 ++ b)) = [a, b] := by
  rw [splitFrom_scan (d :: sep1) a [] _ ha]
  have hp : (d :: sep1).isPrefixOf (d :: (sep1 ++ b)) = true := by
    rw [List.isPrefixOf_iff_prefix]
    exact List.prefix_append (d :: sep1) b
  have hmatch : splitFrom (d :: sep1) 0 (a.reverse ++ []) (d :: sep1 ++ b)
      = (a.reverse ++ []).reverse :: splitFrom (d :: sep1) sep1.length [] (sep1 ++ b) := by
    rw [List.cons_append, splitFrom]
    simp [hp]
  rw [hmatch, splitFrom_skip]
  have hb2 := splitFrom_scan (d :: sep1) b [] [] (by simpa using hb)
  rw [List.append_nil] at hb2
  rw [hb2]
  simp [splitFrom]

theorem splitValue_value (a b : String)
    (h : ∀ i, i ≤ (value a b).length → occursAt valueSep (value a b) i = true → i = a.length) :
    splitValue (value a b) = [a, b] := by
  have hdata : (value a b).data = a.data ++ ('_' :: ['_', '/', '/', '_', '_'] ++ b.data) := by
    simp [value, valueSep, String.data_append]
  have hlen : (value a b).length = a.data.length + 6 + b.data.length := by
    show (value a b).data.length = _
    rw [hdata]
    simp
    omega
  have hsep : valueSep.data = '_' :: ['_', '/', '/', '_', '_'] := rfl
  unfold splitValue stringsSplit
  rw [hdata, hsep, splitFrom_join]
  · rfl
  · intro i hi
    by_contra hne
    have hocc : occursAt valueSep (value a b) i = true := by
      unfold occursAt
      rw [hdata, hsep]
      simpa using hne
    have := h i (by rw [hlen]; omega) hocc
    have hl : a.length = a.data.length := rfl
    omega
  · intro i hi
    by_contra hne
    have hocc : occursAt valueSep (value a b) (a.data.length + 6 + i) = true := by
      unfold occursAt
      rw [hdata, hsep]
      have hd : List.drop (a.data.length + 6 + i)
          (a.data ++ ('_' :: ['_', '/', '/', '_', '_'] ++ b.data)) = List.drop i b.data := by
        rw [show a.data.length + 6 + i = a.data.length + (6 + i) by omega, List.drop_append]
        simp [← List.drop_drop]
      rw [hd]
      simpa using hne
    have := h _ (by rw [hlen]; omega) hocc
    have hl : a.length = a.data.length := rfl
    omega

/-- C7 fails as stated: an oauth record whose `IdToken` is `x__//__y` and whose
`RefreshToken` is `z` is stored as `x__//__y__//__z` and comes back with
`IdToken = x` and `RefreshToken = y`. -/
theorem oauth_value_splits_inside_token :
    (ConfigToKeyring sampleCommon emptyKeyring
        (sampleConf "OAuth2" "x__//__y" "z" "")).keyring.secrets
      "com.pydio.cells-client" "https://cells.example.com::alice" = some "x__//__y__//__z" ∧
    (ConfigFromKeyring sampleCommon idleCollaborators
        (ConfigToKeyring sampleCommon emptyKeyring (sampleConf "OAuth2" "x__//__y" "z" "")).keyring
        (sampleConf "OAuth2" "" "" "")).conf
      = sampleConf "OAuth2" "x" "y" "" ∧
    "x" ≠ "x__//__y" ∧ "y" ≠ "z" := by
  decide

/-- C7 as amended: over a keyring that accepts the write and the read of the
entry `key(Url, User)`, for each of the three auth kinds, `ConfigToKeyring` on a
record followed by `ConfigFromKeyring` on any record with the same `Url`, `User`
and `AuthType` succeeds and restores the secret fields of that kind: `IdToken`
for a personal access token, `Password` for client auth, and for oauth
`IdToken` and `RefreshToken` provided the separator `__//__` occurs in the
stored value `IdToken + "__//__" + RefreshToken` at no other offset than the
end of `IdToken`. -/
theorem store_then_load_restores_secrets (c : Common) (x : Collaborators) (kr : Keyring)
    (conf conf2 : CecConfig)
    (hset : kr.SetErr (getKeyringServiceName c) (key conf.Url conf.User) = none)
    (hget : kr.GetErr (getKeyringServiceName c) (key conf.Url conf.User) = none)
    (hkind : conf.AuthType = c.PatType ∨ conf.AuthType = c.OAuthType ∨
      conf.AuthType = c.ClientAuthType)
    (hUrl : conf2.Url = conf.Url) (hUser : conf2.User = conf.User)
    (hType : conf2.AuthType = conf.AuthType)
    (hsep : conf.AuthType = c.OAuthType →
      ∀ i, i ≤ (value conf.IdToken conf.RefreshToken).length →
        occursAt valueSep (value conf.IdToken conf.RefreshToken) i = true →
        i = conf.IdToken.length) :
    (ConfigToKeyring c kr conf).outcome = .returned none ∧
    (ConfigFromKeyring c x (ConfigToKeyring c kr conf).keyring conf2).outcome
      = .returned none ∧
    (conf.AuthType = c.PatType →
      (ConfigFromKeyring c x (ConfigToKeyring c kr conf).keyring conf2).conf.IdToken
        = conf.IdToken) ∧
    (conf.AuthType = c.OAuthType →
      (ConfigFromKeyring c x (ConfigToKeyring c kr conf).keyring conf2).conf.IdToken
        = conf.IdToken ∧
      (ConfigFromKeyring c x (ConfigToKeyring c kr conf).keyring conf2).conf.RefreshToken
        = conf.RefreshToken) ∧
    (conf.AuthType = c.ClientAuthType →
      (ConfigFromKeyring c x (ConfigToKeyring c kr conf).keyring conf2).conf.Password
        = conf.Password) := by
  obtain ⟨h12, h13, h23⟩ := c.distinct
  have h21 : ¬ c.OAuthType = c.PatType := fun h => h12 h.symm
  have h31 : ¬ c.ClientAuthType = c.PatType := fun h => h13 h.symm
  have h32 : ¬ c.ClientAuthType = c.OAuthType := fun h => h23 h.symm
  rcases hkind with hk | hk | hk
  · simp [ConfigToKeyring, ConfigFromKeyring, feedSecret, Keyring.Set, Keyring.Get, hset, hget,
      hUrl, hUser, hType, hk, h12, h13, h23, h21, h31, h32]
  · have hsplit := splitValue_value conf.IdToken conf.RefreshToken (hsep hk)
    simp [ConfigToKeyring, ConfigFromKeyring, feedSecret, Keyring.Set, Keyring.Get, hset, hget,
      hUrl, hUser, hType, hk, h12, h13, h23, h21, h31, h32, hsplit]
  · simp [ConfigToKeyring, ConfigFromKeyring, feedSecret, Keyring.Set, Keyring.Get, hset, hget,
      hUrl, hUser, hType, hk, h12, h13, h23, h21, h31, h32]

/-- Witness for the amended C7: an oauth record with tokens `tok` and `ref`. -/
theorem store_then_load_restores_secrets_witness :
    (ConfigToKeyring sampleCommon emptyKeyring (sampleConf "OAuth2" "tok" "ref" "")).outcome
      = .returned none ∧
    (ConfigFromKeyring sampleCommon idleCollaborators
      (ConfigToKeyring sampleCommon emptyKeyring (sampleConf "OAuth2" "tok" "ref" "")).keyring
      (sampleConf "OAuth2" "" "" "")).outcome = .returned none ∧
    (ConfigFromKeyring sampleCommon idleCollaborators
      (ConfigToKeyring sampleCommon emptyKeyring (sampleConf "OAuth2" "tok" "ref" "")).keyring
      (sampleConf "OAuth2" "" "" "")).conf.IdToken = "tok" ∧
    (ConfigFromKeyring sampleCommon idleCollaborators
      (ConfigToKeyring sampleCommon emptyKeyring (sampleConf "OAuth2" "tok" "ref" "")).keyring
      (sampleConf "OAuth2" "" "" "")).conf.RefreshToken = "ref" :=
  have h := store_then_load_restores_secrets sampleCommon idleCollaborators emptyKeyring
    (sampleConf "OAuth2" "tok" "ref" "") (sampleConf "OAuth2" "" "" "") rfl rfl
    (Or.inr (Or.inl rfl)) rfl rfl rfl (fun _ => by decide)
  ⟨h.1, h.2.1, (h.2.2.2.1 rfl).1, (h.2.2.2.1 rfl).2⟩

/-! ## Bounded part reader: errors -/

theorem wrapInt64_sub_nonneg (t l : Int) (ht : t = wrapInt64 t) (hl : 0 ≤ l) (h : t > l) :
    0 ≤ wrapInt64 (t - l) := by
  unfold wrapInt64 at ht ⊢
  norm_num at ht ⊢
  omega

/-- C13: an error of the underlying stream is returned unchanged, together
with the count the stream returned. When the requested read stays inside the
window, that is when the `int64` sum `targetCurs = cur + len(p)` is not above
`partLength`, the stream is handed `p` itself; when it would cross the boundary
the stream is handed the buffer of `remaining = targetCurs - partLength` bytes
that the code makes, provided `remaining` is not negative (otherwise `make`
panics before the stream is called). In both cases, if that underlying `Read`
returns the non-nil error `e`, then `partReader.Read` does not panic and returns
`e`. The last part shows that `remaining` is never negative when `partLength`
is not. -/
theorem partReader_read_propagates_error {σ : Type} (rs : CellsClient.ReadSeeker σ)
    (pr : partReader σ) (p : List Nat) (e : GoError) :
    (wrapInt64 (pr.cur + (p.length : Int)) ≤ pr.partLength →
      (rs.Read pr.ReadSeeker p).err = some e →
      (partReader.Read rs pr p).panicked = false ∧
      (partReader.Read rs pr p).err = some e ∧
      (partReader.Read rs pr p).n = (rs.Read pr.ReadSeeker p).n) ∧
    (wrapInt64 (pr.cur + (p.length : Int)) > pr.partLength →
      0 ≤ wrapInt64 (wrapInt64 (pr.cur + (p.length : Int)) - pr.partLength) →
      (rs.Read pr.ReadSeeker (makeBytes
        (wrapInt64 (wrapInt64 (pr.cur + (p.length : Int)) - pr.partLength)))).err = some e →
      (partReader.Read rs pr p).panicked = false ∧
      (partReader.Read rs pr p).err = some e ∧
      (partReader.Read rs pr p).n = (rs.Read pr.ReadSeeker (makeBytes
        (wrapInt64 (wrapInt64 (pr.cur + (p.length : Int)) - pr.partLength)))).n) ∧
    (wrapInt64 (pr.cur + (p.length : Int)) > pr.partLength → 0 ≤ pr.partLength →
      0 ≤ wrapInt64 (wrapInt64 (pr.cur + (p.length : Int)) - pr.partLength)) := by
  refine ⟨?_, ?_, ?_⟩
  · intro hin herr
    have hnot : ¬ wrapInt64 (pr.cur + (p.length : Int)) > pr.partLength := by omega
    simp [partReader.Read, hnot, herr]
  · intro hout hrem herr
    have hnot : ¬ wrapInt64 (wrapInt64 (pr.cur + (p.length : Int)) - pr.partLength) < 0 := by
      omega
    simp [partReader.Read, hout, hnot, herr]
  · intro hout hl
    refine wrapInt64_sub_nonneg _ _ ?_ hl hout
    unfold wrapInt64
    norm_num

/-- Witness for C13: an exhausted in-memory stream answers `io.EOF`, inside
the window (4-byte buffer, `partLength = 10`) and across it (15-byte buffer). -/
theorem partReader_read_propagates_error_witness :
    ((partReader.Read memReadSeeker (freshPartReader 0 10) (List.replicate 4 0)).panicked
        = false ∧
      (partReader.Read memReadSeeker (freshPartReader 0 10) (List.replicate 4 0)).err
        = some io_EOF ∧
      (partReader.Read memReadSeeker (freshPartReader 0 10) (List.replicate 4 0)).n
        = (memReadSeeker.Read (freshPartReader 0 10).ReadSeeker (List.replicate 4 0)).n) ∧
    ((partReader.Read memReadSeeker (freshPartReader 0 10) (List.replicate 15 0)).panicked
        = false ∧
      (partReader.Read memReadSeeker (freshPartReader 0 10) (List.replicate 15 0)).err
        = some io_EOF ∧
      (partReader.Read memReadSeeker (freshPartReader 0 10) (List.replicate 15 0)).n
        = (memReadSeeker.Read (freshPartReader 0 10).ReadSeeker (makeBytes
            (wrapInt64 (wrapInt64 ((freshPartReader 0 10).cur +
              ((List.replicate 15 0).length : Int)) - (freshPartReader 0 10).partLength)))).n) ∧
    0 ≤ wrapInt64 (wrapInt64 ((freshPartReader 0 10).cur +
      ((List.replicate 15 0).length : Int)) - (freshPartReader 0 10).partLength) :=
  ⟨(partReader_read_propagates_error memReadSeeker (freshPartReader 0 10)
      (List.replicate 4 0) io_EOF).1 (by decide) (by decide),
   (partReader_read_propagates_error memReadSeeker (freshPartReader 0 10)
      (List.replicate 15 0) io_EOF).2.1 (by decide) (by decide) (by decide),
   (partReader_read_propagates_error memReadSeeker (freshPartReader 0 10)
      (List.replicate 15 0) io_EOF).2.2 (by decide) (by decide)⟩

/-! ## Credential store: failing write -/

/-- C16: for a record of any of the three auth kinds, when the keyring refuses
the write of the entry `key(Url, User)` with error `e`, `ConfigToKeyring`
returns `e`, the record is left exactly as it was (secret fields included) and
the keyring holds what it held before. -/
theorem ConfigToKeyring_failed_write_keeps_record (c : Common) (kr : Keyring)
    (conf : CecConfig) (e : GoError)
    (hkind : conf.AuthType = c.PatType ∨ conf.AuthType = c.OAuthType ∨
      conf.AuthType = c.ClientAuthType)
    (hfail : kr.SetErr (getKeyringServiceName c) (key conf.Url conf.User) = some e) :
    (ConfigToKeyring c kr conf).outcome = .returned (some e) ∧
    (ConfigToKeyring c kr conf).conf = conf ∧
    (ConfigToKeyring c kr conf).keyring.secrets = kr.secrets := by
  obtain ⟨h12, h13, h23⟩ := c.distinct
  have h21 : ¬ c.OAuthType = c.PatType := fun h => h12 h.symm
  have h31 : ¬ c.ClientAuthType = c.PatType := fun h => h13 h.symm
  have h32 : ¬ c.ClientAuthType = c.OAuthType := fun h => h23 h.symm
  unfold ConfigToKeyring Keyring.Set
  rcases hkind with hk | hk | hk <;> simp [hfail, hk, h12, h21, h31, h32]

/-- Witness for C16: an oauth record and a keyring whose writes fail. -/
theorem ConfigToKeyring_failed_write_keeps_record_witness :
    (ConfigToKeyring sampleCommon (keyringWriteFails keyringLocked)
      (sampleConf "OAuth2" "tok" "ref" "")).outcome = .returned (some keyringLocked) ∧
    (ConfigToKeyring sampleCommon (keyringWriteFails keyringLocked)
      (sampleConf "OAuth2" "tok" "ref" "")).conf = sampleConf "OAuth2" "tok" "ref" "" ∧
    (ConfigToKeyring sampleCommon (keyringWriteFails keyringLocked)
      (sampleConf "OAuth2" "tok" "ref" "")).keyring.secrets
      = (keyringWriteFails keyringLocked).secrets :=
  ConfigToKeyring_failed_write_keeps_record sampleCommon (keyringWriteFails keyringLocked)
    (sampleConf "OAuth2" "tok" "ref" "") keyringLocked (Or.inr (Or.inl rfl)) rfl

/-! ## Command-line configuration -/

theorem string_length_pos_iff (s : String) : 0 < s.length ↔ s ≠ "" := by
  cases s with
  | mk data =>
    cases data with
    | nil => simp [String.length]
    | cons ch t =>
      simp only [String.length, List.length_cons, Nat.zero_lt_succ, true_iff]
      intro h
      have := congrArg String.data h
      simp at this

/-- C14: with a non-empty server URL and a non-empty token, whatever login and
password are, `getCecConfigFromEnv` returns the zero record with `IdToken` set
to the token, `Url` to the server URL, `AuthType` to the personal-access-token
kind, `SkipVerify` and `SkipKeyring` to the flags and `UseTokenCache` to
`!noCache`; in particular `User` and `Password` are empty. When the URL is
empty, or the token is empty and login or password is empty, the returned
record has an empty `Url`. -/
theorem getCecConfigFromEnv_spec (c : Common) (g : CmdVars) :
    (g.serverURL ≠ "" → g.token ≠ "" →
      (getCecConfigFromEnv c g).1 =
        { zeroCecConfig with
            IdToken := g.token, Url := g.serverURL, AuthType := c.PatType,
            SkipVerify := g.skipVerify, SkipKeyring := g.skipKeyring,
            UseTokenCache := !g.noCache } ∧
      (getCecConfigFromEnv c g).1.User = "" ∧ (getCecConfigFromEnv c g).1.Password = "") ∧
    ((g.serverURL = "" ∨ (g.token = "" ∧ (g.login = "" ∨ g.password = ""))) →
      (getCecConfigFromEnv c g).1.Url = "") := by
  constructor
  · intro hu ht
    have hu1 := (string_length_pos_iff g.serverURL).mpr hu
    have ht1 := (string_length_pos_iff g.token).mpr ht
    simp [getCecConfigFromEnv, hu1, ht1, zeroCecConfig]
  · intro h
    rcases h with hu | ⟨ht, hl | hp⟩
    · simp [getCecConfigFromEnv, hu, zeroCecConfig]
    · by_cases hu : 0 < g.serverURL.length <;>
        simp [getCecConfigFromEnv, hu, ht, hl, zeroCecConfig]
    · by_cases hu : 0 < g.serverURL.length <;>
        simp [getCecConfigFromEnv, hu, ht, hp, zeroCecConfig]

/-- Witness for C14: URL, token, login and password all given; then with the
URL removed. -/
theorem getCecConfigFromEnv_spec_witness :
    ((getCecConfigFromEnv sampleCommon sampleVars).1 =
        { zeroCecConfig with
            IdToken := "pat-123", Url := "https://cells.example.com",
            AuthType := "Personal Access Token", SkipVerify := true, SkipKeyring := false,
            UseTokenCache := false } ∧
      (getCecConfigFromEnv sampleCommon sampleVars).1.User = "" ∧
      (getCecConfigFromEnv sampleCommon sampleVars).1.Password = "") ∧
    (getCecConfigFromEnv sampleCommon { sampleVars with serverURL := "" }).1.Url = "" :=
  ⟨(getCecConfigFromEnv_spec sampleCommon sampleVars).1 (by decide) (by decide),
   (getCecConfigFromEnv_spec sampleCommon { sampleVars with serverURL := "" }).2
     (Or.inl rfl)⟩

/-! ## Credential store: reading an oauth value -/

theorem splitFrom_length_pos (sep : List Char) :
    ∀ (s : List Char) (k : Nat) (acc : List Char), 1 ≤ (splitFrom sep k acc s).length := by
  intro s
  induction s with
  | nil => intro k acc; cases k <;> simp [splitFrom]
  | cons ch cs ih =>
    intro k acc
    cases k with
    | succ k => rw [splitFrom]; exact ih k acc
    | zero =>
      rw [splitFrom]
      split
      · simp
      · exact ih 0 (ch :: acc)

theorem splitFrom_length_two (d : Char) (sep1 b : List Char) :
    ∀ (a acc : List Char),
      2 ≤ (splitFrom (d :: sep1) 0 acc (a ++ (d :: sep1 ++ b))).length := by
  intro a
  induction a with
  | nil =>
    intro acc
    have hp : (d :: sep1).isPrefixOf (d :: (sep1 ++ b)) = true := by
      rw [List.isPrefixOf_iff_prefix]
      exact List.prefix_append (d :: sep1) b
    rw [List.nil_append, List.cons_append, splitFrom]
    rw [if_pos hp, List.length_cons]
    exact Nat.succ_le_succ
      (splitFrom_length_pos (d :: sep1) (sep1 ++ b) ((d :: sep1).length - 1) [])
  | cons ch a ih =>
    intro acc
    rw [List.cons_append, splitFrom]
    split
    · rw [List.length_cons]
      exact Nat.succ_le_succ (splitFrom_length_pos (d :: sep1) (a ++ (d :: sep1 ++ b))
        ((d :: sep1).length - 1) [])
    · exact ih (ch :: acc)

theorem splitValue_length_two (a b : String) :
    2 ≤ (splitValue (a ++ valueSep ++ b)).length := by
  have hdata : (a ++ valueSep ++ b).data
      = a.data ++ ('_' :: ['_', '/', '/', '_', '_'] ++ b.data) := by
    simp [valueSep, String.data_append]
  have hsep : valueSep.data = '_' :: ['_', '/', '/', '_', '_'] := rfl
  unfold splitValue stringsSplit
  rw [hdata, hsep, List.length_map]
  exact splitFrom_length_two '_' ['_', '/', '/', '_', '_'] b.data a.data []

/-- C15 fails as stated: with the text `abc` stored under the current key of an
oauth record, `splitValue` yields the single piece `abc` and
`ConfigFromKeyring` panics on `parts[1]`. -/
theorem ConfigFromKeyring_oauth_panics_without_separator :
    splitValue "abc" = ["abc"] ∧
    (keyringWithSecret "abc").Get (getKeyringServiceName sampleCommon)
      (key "https://cells.example.com" "alice") = .ok "abc" ∧
    (ConfigFromKeyring sampleCommon idleCollaborators (keyringWithSecret "abc")
      (sampleConf "OAuth2" "" "" "")).outcome = .panicked := by
  decide

/-- C15 as amended: for every string stored under the current key
`key(Url, User)` that contains the separator `__//__`, that is every string of
the form `a + "__//__" + b`, `splitValue` yields at least two pieces and
`ConfigFromKeyring` on a record with auth kind oauth returns without error and
without an out-of-range index access. -/
theorem ConfigFromKeyring_oauth_reads_two_parts (c : Common) (x : Collaborators)
    (kr : Keyring) (conf : CecConfig) (a b : String)
    (hkind : conf.AuthType = c.OAuthType)
    (hget : kr.Get (getKeyringServiceName c) (key conf.Url conf.User)
      = .ok (a ++ valueSep ++ b)) :
    2 ≤ (splitValue (a ++ valueSep ++ b)).length ∧
    (ConfigFromKeyring c x kr conf).outcome = .returned none := by
  have hlen := splitValue_length_two a b
  refine ⟨hlen, ?_⟩
  unfold ConfigFromKeyring
  rw [hget]
  simp only [feedSecret, hkind, if_true]
  rcases hsv : splitValue (a ++ valueSep ++ b) with _ | ⟨p0, _ | ⟨p1, rest⟩⟩
  · rw [hsv] at hlen; simp at hlen
  · rw [hsv] at hlen; simp at hlen
  · rfl

/-- Witness for the amended C15: the stored value `tok__//__ref`. -/
theorem ConfigFromKeyring_oauth_reads_two_parts_witness :
    2 ≤ (splitValue ("tok" ++ valueSep ++ "ref")).length ∧
    (ConfigFromKeyring sampleCommon idleCollaborators (keyringWithSecret "tok__//__ref")
      (sampleConf "OAuth2" "" "" "")).outcome = .returned none :=
  ConfigFromKeyring_oauth_reads_two_parts sampleCommon idleCollaborators
    (keyringWithSecret "tok__//__ref") (sampleConf "OAuth2" "" "" "") "tok" "ref" rfl
    (by decide)

/-! ## Legacy environment variables -/

theorem isPrefixOf_eq_cons (ch : Char) (l : List Char) :
    (['='] : List Char).isPrefixOf (ch :: l) = ('=' == ch) := by
  simp [List.isPrefixOf]

theorem splitEq_scan :
    ∀ (a acc t : List Char), '=' ∉ a →
      splitFrom ['='] 0 acc (a ++ t) = splitFrom ['='] 0 (a.reverse ++ acc) t := by
  intro a
  induction a with
  | nil => intro acc t _; rfl
  | cons ch a ih =>
    intro acc t h
    have hch : ¬ '=' = ch := fun he => h (by rw [he]; exact List.mem_cons_self _ _)
    have ha : '=' ∉ a := fun hm => h (List.mem_cons_of_mem _ hm)
    have hb : ('=' == ch) = false := by simpa using hch
    rw [List.cons_append, splitFrom, isPrefixOf_eq_cons, hb]
    simp only [Bool.false_eq_true, if_false]
    rw [ih (ch :: acc) t ha]
    simp

theorem splitEq_length :
    ∀ (v acc : List Char), (splitFrom ['='] 0 acc v).length = 1 + v.count '=' := by
  intro v
  induction v with
  | nil => intro acc; simp [splitFrom]
  | cons ch v ih =>
    intro acc
    rw [splitFrom, isPrefixOf_eq_cons]
    by_cases hch : '=' = ch
    · subst hch
      simp only [beq_self_eq_true, if_true, List.length_cons, List.length_nil, Nat.sub_self,
        ih, List.count_cons_self]
      omega
    · have hb : ('=' == ch) = false := by simpa using hch
      rw [hb]
      simp only [Bool.false_eq_true, if_false, ih]
      rw [List.count_cons_of_ne hch]

theorem stringsSplit_entry (name v : String) (hname : '=' ∉ name.data) :
    stringsSplit (name ++ "=" ++ v) "="
      = name :: (splitFrom ['='] 0 [] v.data).map String.mk := by
  have hdata : (name ++ "=" ++ v).data = name.data ++ ('=' :: v.data) := by
    simp [String.data_append]
  have hsep : ("=" : String).data = ['='] := rfl
  unfold stringsSplit
  rw [hdata, hsep, splitEq_scan name.data [] ('=' :: v.data) hname, splitFrom]
  simp [List.isPrefixOf]

theorem legacyEntry_of_name (name v : String) (hname : '=' ∉ name.data)
    (hpre : stringsHasPrefix name "CELLS_CLIENT_TARGET_" = true) :
    legacyEntry (name ++ "=" ++ v)
      = if v ≠ "" ∧ '=' ∉ v.data then legacySwitch name v else [] := by
  have hp : stringsHasPrefix (name ++ "=" ++ v) "CELLS_CLIENT_TARGET_" = true := by
    unfold stringsHasPrefix at hpre ⊢
    rw [List.isPrefixOf_iff_prefix] at hpre ⊢
    have hdata : (name ++ "=" ++ v).data = name.data ++ ('=' :: v.data) := by
      simp [String.data_append]
    rw [hdata]
    exact hpre.trans (List.prefix_append _ _)
  unfold legacyEntry
  simp only [hp, if_true]
  rw [stringsSplit_entry name v hname]
  have hlen := splitEq_length v.data []
  by_cases heq : '=' ∈ v.data
  · have hc : 0 < v.data.count '=' := List.count_pos_iff.mpr heq
    have hrhs : ¬ (v ≠ "" ∧ '=' ∉ v.data) := fun h => h.2 heq
    rw [if_neg hrhs]
    rcases hs : splitFrom ['='] 0 [] v.data with _ | ⟨q0, _ | ⟨q1, rest⟩⟩
    · rw [hs] at hlen
      simp only [List.length_nil] at hlen
      omega
    · rw [hs] at hlen
      simp only [List.length_cons, List.length_nil] at hlen
      omega
    · rfl
  · have hs : splitFrom ['='] 0 [] v.data = [v.data] := by
      have := splitEq_scan v.data [] [] heq
      rw [List.append_nil] at this
      rw [this]
      simp [splitFrom]
    rw [hs]
    simp only [List.map_cons, List.map_nil]
    by_cases hv : v = ""
    · simp [hv]
    · simp [hv, heq]

theorem handleLegagyParams_append (pre post : List String) :
    handleLegagyParams (pre ++ post) = handleLegagyParams pre ++ handleLegagyParams post := by
  induction pre with
  | nil => rfl
  | cons p pre ih => simp [handleLegagyParams, ih]

/-- C17: wherever an entry `NAME=v` stands among the entries of the
environment, with `NAME` one of `CELLS_CLIENT_TARGET_URL`,
`CELLS_CLIENT_TARGET_USER_LOGIN`, `CELLS_CLIENT_TARGET_USER_PWD` and
`CELLS_CLIENT_TARGET_SKIP_VERIFY`, what `handleLegagyParams` does for that
entry, between what it does for the entries before and after it, is exactly one
`os.Setenv` of the matching new variable (`CEC_URL`, `CEC_LOGIN`,
`CEC_PASSWORD`, `CEC_SKIP_VERIFY`) to `v` when `v` is non-empty and holds no
`=`, and nothing at all otherwise. -/
theorem handleLegagyParams_sets_new_variable (pre post : List String) (v : String) :
    handleLegagyParams (pre ++ ("CELLS_CLIENT_TARGET_URL" ++ "=" ++ v) :: post)
      = handleLegagyParams pre ++
        (if v ≠ "" ∧ '=' ∉ v.data then [EnvEffect.Setenv "CEC_URL" v] else []) ++
        handleLegagyParams post ∧
    handleLegagyParams (pre ++ ("CELLS_CLIENT_TARGET_USER_LOGIN" ++ "=" ++ v) :: post)
      = handleLegagyParams pre ++
        (if v ≠ "" ∧ '=' ∉ v.data then [EnvEffect.Setenv "CEC_LOGIN" v] else []) ++
        handleLegagyParams post ∧
    handleLegagyParams (pre ++ ("CELLS_CLIENT_TARGET_USER_PWD" ++ "=" ++ v) :: post)
      = handleLegagyParams pre ++
        (if v ≠ "" ∧ '=' ∉ v.data then [EnvEffect.Setenv "CEC_PASSWORD" v] else []) ++
        handleLegagyParams post ∧
    handleLegagyParams (pre ++ ("CELLS_CLIENT_TARGET_SKIP_VERIFY" ++ "=" ++ v) :: post)
      = handleLegagyParams pre ++
        (if v ≠ "" ∧ '=' ∉ v.data then [EnvEffect.Setenv "CEC_SKIP_VERIFY" v] else []) ++
        handleLegagyParams post := by
  have h1 := legacyEntry_of_name "CELLS_CLIENT_TARGET_URL" v (by decide) (by decide)
  have h2 := legacyEntry_of_name "CELLS_CLIENT_TARGET_USER_LOGIN" v (by decide) (by decide)
  have h3 := legacyEntry_of_name "CELLS_CLIENT_TARGET_USER_PWD" v (by decide) (by decide)
  have h4 := legacyEntry_of_name "CELLS_CLIENT_TARGET_SKIP_VERIFY" v (by decide) (by decide)
  have s1 : legacySwitch "CELLS_CLIENT_TARGET_URL" v = [EnvEffect.Setenv "CEC_URL" v] := by
    simp [legacySwitch]
  have s2 : legacySwitch "CELLS_CLIENT_TARGET_USER_LOGIN" v
      = [EnvEffect.Setenv "CEC_LOGIN" v] := by
    unfold legacySwitch
    rw [if_neg (by decide), if_neg (by decide), if_pos rfl]
  have s3 : legacySwitch "CELLS_CLIENT_TARGET_USER_PWD" v
      = [EnvEffect.Setenv "CEC_PASSWORD" v] := by
    unfold legacySwitch
    rw [if_neg (by decide), if_neg (by decide), if_neg (by decide), if_pos rfl]
  have s4 : legacySwitch "CELLS_CLIENT_TARGET_SKIP_VERIFY" v
      = [EnvEffect.Setenv "CEC_SKIP_VERIFY" v] := by
    unfold legacySwitch
    rw [if_neg (by decide), if_neg (by decide), if_neg (by decide), if_neg (by decide),
      if_pos rfl]
  rw [s1] at h1
  rw [s2] at h2
  rw [s3] at h3
  rw [s4] at h4
  refine ⟨?_, ?_, ?_, ?_⟩ <;>
    simp only [handleLegagyParams_append, handleLegagyParams, h1, h2, h3, h4,
      List.append_assoc]

/-! ## Refresh guard -/

/-- C11 fails as stated, with `SkipKeyring` false in both cases: a refreshed
client-auth record that carries an `IdToken` is serialized with that `IdToken`,
because `ConfigToKeyring` empties the secret fields of the record's own kind
only; and a refreshed oauth record is serialized with both tokens when the
keyring refuses the write, because the error of `ConfigToKeyring` is dropped. -/
theorem RefreshAndStoreIfRequired_serializes_secrets :
    (RefreshAndStoreIfRequired sampleCommon refreshingCollaborators emptyKeyring
        (sampleConf "Client Credentials" "jwt" "" "pw")).written
      = some (sampleConf "Client Credentials" "jwt" "" "") ∧
    (RefreshAndStoreIfRequired sampleCommon refreshingCollaborators
        (keyringWriteFails keyringLocked) (sampleConf "OAuth2" "tok" "ref" "")).written
      = some (sampleConf "OAuth2" "tok" "ref" "") ∧
    (sampleConf "Client Credentials" "jwt" "" "").SkipKeyring = false ∧
    (sampleConf "Client Credentials" "jwt" "" "").IdToken ≠ "" ∧
    (sampleConf "OAuth2" "tok" "ref" "").SkipKeyring = false ∧
    (sampleConf "OAuth2" "tok" "ref" "").IdToken ≠ "" := by
  decide

/-- C11 as amended: when `RefreshAndStoreIfRequired` performs a refresh, the
record serialized to the config file is the refreshed record as it is when its
`SkipKeyring` flag is set; when the flag is not set, the auth kind is one of the
three kinds and the keyring accepts the write of `key(Url, User)`, it is the
refreshed record with the secret fields of its auth kind emptied (`IdToken` and
`RefreshToken` for oauth, `IdToken` for a personal access token, `Password`
for client auth) and every other field as it is. -/
theorem RefreshAndStoreIfRequired_serialized_record (c : Common) (x : Collaborators)
    (kr : Keyring) (conf : CecConfig)
    (hrefreshed : x.RefreshIfRequiredAnswer conf = (true, none)) :
    ((x.RefreshIfRequired conf).SkipKeyring = true →
      (RefreshAndStoreIfRequired c x kr conf).written = some (x.RefreshIfRequired conf)) ∧
    ((x.RefreshIfRequired conf).SkipKeyring = false →
      ((x.RefreshIfRequired conf).AuthType = c.PatType ∨
        (x.RefreshIfRequired conf).AuthType = c.OAuthType ∨
        (x.RefreshIfRequired conf).AuthType = c.ClientAuthType) →
      kr.SetErr (getKeyringServiceName c)
        (key (x.RefreshIfRequired conf).Url (x.RefreshIfRequired conf).User) = none →
      (RefreshAndStoreIfRequired c x kr conf).written
        = some (if (x.RefreshIfRequired conf).AuthType = c.OAuthType then
            { x.RefreshIfRequired conf with IdToken := "", RefreshToken := "" }
          else if (x.RefreshIfRequired conf).AuthType = c.PatType then
            { x.RefreshIfRequired conf with IdToken := "" }
          else { x.RefreshIfRequired conf with Password := "" })) := by
  obtain ⟨h12, h13, h23⟩ := c.distinct
  have h21 : ¬ c.OAuthType = c.PatType := fun h => h12 h.symm
  have h31 : ¬ c.ClientAuthType = c.PatType := fun h => h13 h.symm
  have h32 : ¬ c.ClientAuthType = c.OAuthType := fun h => h23 h.symm
  constructor
  · intro hskip
    simp [RefreshAndStoreIfRequired, hrefreshed, hskip]
  · intro hskip hkind hset
    unfold RefreshAndStoreIfRequired ConfigToKeyring Keyring.Set
    rcases hkind with hk | hk | hk <;>
      simp [hrefreshed, hskip, hset, hk, h12, h21, h31, h32]

/-- Witness for the amended C11: an oauth record with `SkipKeyring` set, and
the same record with the flag unset over a working keyring. -/
theorem RefreshAndStoreIfRequired_serialized_record_witness :
    (RefreshAndStoreIfRequired sampleCommon refreshingCollaborators emptyKeyring
        { sampleConf "OAuth2" "tok" "ref" "" with SkipKeyring := true }).written
      = some { sampleConf "OAuth2" "tok" "ref" "" with SkipKeyring := true } ∧
    (RefreshAndStoreIfRequired sampleCommon refreshingCollaborators emptyKeyring
        (sampleConf "OAuth2" "tok" "ref" "")).written
      = some (sampleConf "OAuth2" "" "" "") :=
  ⟨(RefreshAndStoreIfRequired_serialized_record sampleCommon refreshingCollaborators
      emptyKeyring { sampleConf "OAuth2" "tok" "ref" "" with SkipKeyring := true } rfl).1 rfl,
   (RefreshAndStoreIfRequired_serialized_record sampleCommon refreshingCollaborators
      emptyKeyring (sampleConf "OAuth2" "tok" "ref" "") rfl).2 rfl (Or.inr (Or.inl rfl)) rfl⟩

/-! ## Legacy migration -/

/-- C12 fails as stated: a record with user `alice` and no secret in memory,
whose tokens are in the keyring under the legacy key `key(Url, "IdToken")` only,
is taken for a client-auth record because its `User` is not empty;
`ConfigFromKeyring` looks for `key(Url, "ClientCredentials")`, returns the
error "secret not found in keyring" and leaves the legacy entry in place. -/
theorem ConfigFromKeyring_legacy_oauth_with_user_fails :
    (legacyKeyring "IdToken" "tok__//__ref").secrets (getKeyringServiceName sampleCommon)
        (key "https://cells.example.com" "alice") = none ∧
    (ConfigFromKeyringSpec sampleCommon id (legacyKeyring "IdToken" "tok__//__ref")
        (sampleConf "" "" "" "")).outcome = .returned (some ErrNotFound) ∧
    (ConfigFromKeyringSpec sampleCommon id (legacyKeyring "IdToken" "tok__//__ref")
        (sampleConf "" "" "" "")).keyring.secrets (getKeyringServiceName sampleCommon)
        (key "https://cells.example.com" "IdToken") = some "tok__//__ref" := by
  decide

theorem legacy_client_migration (c : Common) (refresh : CecConfig → CecConfig)
    (kr : Keyring) (conf : CecConfig) (a b : String)
    (hsplit : splitValue (value a b) = [a, b])
    (hcur : kr.worksAt (getKeyringServiceName c) (key conf.Url conf.User))
    (hnone : kr.secrets (getKeyringServiceName c) (key conf.Url conf.User) = none)
    (hu : conf.User ≠ "") (hp : conf.Password = "")
    (hleg : kr.worksAt (getKeyringServiceName c) (key conf.Url "ClientCredentials"))
    (hval : kr.secrets (getKeyringServiceName c) (key conf.Url "ClientCredentials")
      = some (value a b)) :
    (ConfigFromKeyringSpec c refresh kr conf).outcome = .returned none ∧
    (ConfigFromKeyringSpec c refresh kr conf).keyring.secrets (getKeyringServiceName c)
      (key conf.Url "ClientCredentials") = none ∧
    (ConfigFromKeyringSpec c refresh kr conf).conf.AuthType = c.ClientAuthType ∧
    (ConfigFromKeyringSpec c refresh kr conf).keyring.secrets (getKeyringServiceName c)
      (key conf.Url conf.User) = some b ∧
    (ConfigFromKeyringSpec c refresh kr conf).conf.Password = b := by
  obtain ⟨h12, h13, h23⟩ := c.distinct
  have h31 : ¬ c.ClientAuthType = c.PatType := fun h => h13 h.symm
  have h32 : ¬ c.ClientAuthType = c.OAuthType := fun h => h23 h.symm
  obtain ⟨hcg, hcs, -⟩ := hcur
  obtain ⟨hlg, -, hld⟩ := hleg
  have hne : ¬ key conf.Url "ClientCredentials" = key conf.Url conf.User := by
    intro h
    rw [h, hnone] at hval
    cases hval
  have hne2 : ¬ key conf.Url conf.User = key conf.Url "ClientCredentials" :=
    fun h => hne h.symm
  simp [ConfigFromKeyringSpec, ConfigFromKeyring, retrieveLegacyKey, specCollaborators,
    UpdateConfig, ConfigToKeyring, feedSecret, Keyring.Get, Keyring.Set, Keyring.Delete,
    hcg, hcs, hnone, hu, hp, hlg, hld, hval, hsplit, h31, h32, hne, hne2]

theorem legacy_oauth_migration (c : Common) (refresh : CecConfig → CecConfig)
    (kr : Keyring) (conf : CecConfig) (a b : String)
    (hsplit : splitValue (value a b) = [a, b])
    (hcur : kr.worksAt (getKeyringServiceName c) (key conf.Url conf.User))
    (hnone : kr.secrets (getKeyringServiceName c) (key conf.Url conf.User) = none)
    (hu : conf.User = "") (hi : conf.IdToken = "") (hr : conf.RefreshToken = "")
    (hp : conf.Password = "")
    (hleg : kr.worksAt (getKeyringServiceName c) (key conf.Url "IdToken"))
    (hval : kr.secrets (getKeyringServiceName c) (key conf.Url "IdToken") = some (value a b))
    (hUrl : (refresh (legacyOAuthRecord c conf a b)).Url = conf.Url)
    (hUser : (refresh (legacyOAuthRecord c conf a b)).User = conf.User)
    (hType : (refresh (legacyOAuthRecord c conf a b)).AuthType = c.OAuthType) :
    (ConfigFromKeyringSpec c refresh kr conf).outcome = .returned none ∧
    (ConfigFromKeyringSpec c refresh kr conf).keyring.secrets (getKeyringServiceName c)
      (key conf.Url "IdToken") = none ∧
    (ConfigFromKeyringSpec c refresh kr conf).conf.AuthType = c.OAuthType ∧
    (ConfigFromKeyringSpec c refresh kr conf).keyring.secrets (getKeyringServiceName c)
      (key conf.Url conf.User)
      = some (value (refresh (legacyOAuthRecord c conf a b)).IdToken
          (refresh (legacyOAuthRecord c conf a b)).RefreshToken) := by
  obtain ⟨h12, h13, h23⟩ := c.distinct
  have h21 : ¬ c.OAuthType = c.PatType := fun h => h12 h.symm
  obtain ⟨hcg, hcs, -⟩ := hcur
  obtain ⟨hlg, -, hld⟩ := hleg
  have hne : ¬ key conf.Url "IdToken" = key conf.Url conf.User := by
    intro h
    rw [h, hnone] at hval
    cases hval
  have hne2 : ¬ key conf.Url conf.User = key conf.Url "IdToken" := fun h => hne h.symm
  have hlen := splitValue_length_two (refresh (legacyOAuthRecord c conf a b)).IdToken
    (refresh (legacyOAuthRecord c conf a b)).RefreshToken
  generalize hc2 : refresh (legacyOAuthRecord c conf a b) = conf2 at hUrl hUser hType hlen ⊢
  obtain ⟨Url, User, Password, IdToken, RefreshToken, TokenExpiresAt, SkipVerify,
    UseTokenCache, SkipKeyring, AuthType⟩ := conf
  simp only at hu hi hr hp
  subst hu hi hr hp
  simp only [legacyOAuthRecord] at hc2
  simp only at hcg hcs hnone hlg hld hval hne hne2 hUrl hUser
  rcases hsv : splitValue (value conf2.IdToken conf2.RefreshToken) with
    _ | ⟨p0, _ | ⟨p1, rest⟩⟩
  · rw [value] at hsv
    rw [hsv] at hlen
    simp only [List.length_nil] at hlen
    omega
  · rw [value] at hsv
    rw [hsv] at hlen
    simp only [List.length_cons, List.length_nil] at hlen
    omega
  · simp [ConfigFromKeyringSpec, ConfigFromKeyring, retrieveLegacyKey, specCollaborators,
      UpdateConfig, ConfigToKeyring, feedSecret, Keyring.Get, Keyring.Set, Keyring.Delete,
      hcg, hcs, hnone, hlg, hld, hval, hsplit, h12, h21, hne, hne2, hUrl, hUser, hType, hsv,
      hc2]

/-- C12 as amended, with `UpdateConfig` as the specification describes it.
Let the keyring work for the entries involved and hold nothing under the
current key `key(Url, User)`, and let `a` and `b` be such that `__//__` occurs
in `a + "__//__" + b` at the end of `a` only.

* If the record has a `User` and no `Password`, and the legacy entry
  `key(Url, "ClientCredentials")` holds `a__//__b`, then `ConfigFromKeyring`
  returns no error, the legacy entry is gone, the auth kind is client auth, the
  current key holds `b` and the record's `Password` is `b`.
* If the record has no `User`, `IdToken`, `RefreshToken` or `Password`, the
  legacy entry `key(Url, "IdToken")` holds `a__//__b`, and `RefreshIfRequired`
  leaves `Url` and `User` and the oauth kind of the decomposed record in place,
  then `ConfigFromKeyring` returns no error, the legacy entry is gone, the auth
  kind is oauth, and the current key holds the two tokens of the record as
  `RefreshIfRequired` left it, joined by `__//__` (this is `a__//__b` when no
  refresh took place). -/
theorem ConfigFromKeyring_migrates_legacy_entry (c : Common)
    (refresh : CecConfig → CecConfig) (kr : Keyring) (conf : CecConfig) (a b : String)
    (hsep : ∀ i, i ≤ (value a b).length → occursAt valueSep (value a b) i = true →
      i = a.length)
    (hcur : kr.worksAt (getKeyringServiceName c) (key conf.Url conf.User))
    (hnone : kr.secrets (getKeyringServiceName c) (key conf.Url conf.User) = none) :
    (conf.User ≠ "" → conf.Password = "" →
      kr.worksAt (getKeyringServiceName c) (key conf.Url "ClientCredentials") →
      kr.secrets (getKeyringServiceName c) (key conf.Url "ClientCredentials")
        = some (value a b) →
      (ConfigFromKeyringSpec c refresh kr conf).outcome = .returned none ∧
      (ConfigFromKeyringSpec c refresh kr conf).keyring.secrets (getKeyringServiceName c)
        (key conf.Url "ClientCredentials") = none ∧
      (ConfigFromKeyringSpec c refresh kr conf).conf.AuthType = c.ClientAuthType ∧
      (ConfigFromKeyringSpec c refresh kr conf).keyring.secrets (getKeyringServiceName c)
        (key conf.Url conf.User) = some b ∧
      (ConfigFromKeyringSpec c refresh kr conf).conf.Password = b) ∧
    (conf.User = "" → conf.IdToken = "" → conf.RefreshToken = "" → conf.Password = "" →
      kr.worksAt (getKeyringServiceName c) (key conf.Url "IdToken") →
      kr.secrets (getKeyringServiceName c) (key conf.Url "IdToken") = some (value a b) →
      (refresh (legacyOAuthRecord c conf a b)).Url = conf.Url →
      (refresh (legacyOAuthRecord c conf a b)).User = conf.User →
      (refresh (legacyOAuthRecord c conf a b)).AuthType = c.OAuthType →
      (ConfigFromKeyringSpec c refresh kr conf).outcome = .returned none ∧
      (ConfigFromKeyringSpec c refresh kr conf).keyring.secrets (getKeyringServiceName c)
        (key conf.Url "IdToken") = none ∧
      (ConfigFromKeyringSpec c refresh kr conf).conf.AuthType = c.OAuthType ∧
      (ConfigFromKeyringSpec c refresh kr conf).keyring.secrets (getKeyringServiceName c)
        (key conf.Url conf.User)
        = some (value (refresh (legacyOAuthRecord c conf a b)).IdToken
            (refresh (legacyOAuthRecord c conf a b)).RefreshToken)) := by
  have hsplit := splitValue_value a b hsep
  exact ⟨fun hu hp hleg hval =>
      legacy_client_migration c refresh kr conf a b hsplit hcur hnone hu hp hleg hval,
    fun hu hi hr hp hleg hval hUrl hUser hType =>
      legacy_oauth_migration c refresh kr conf a b hsplit hcur hnone hu hi hr hp hleg hval
        hUrl hUser hType⟩

/-- Witness for the amended C12: a legacy client entry `sec__//__pw` for user
`alice`, and a legacy oauth entry `tok__//__ref` for a record without user. -/
theorem ConfigFromKeyring_migrates_legacy_entry_witness :
    ((ConfigFromKeyringSpec sampleCommon id (legacyKeyring "ClientCredentials" "sec__//__pw")
        (sampleConf "" "" "" "")).outcome = .returned none ∧
      (ConfigFromKeyringSpec sampleCommon id (legacyKeyring "ClientCredentials" "sec__//__pw")
        (sampleConf "" "" "" "")).keyring.secrets (getKeyringServiceName sampleCommon)
        (key "https://cells.example.com" "ClientCredentials") = none ∧
      (ConfigFromKeyringSpec sampleCommon id (legacyKeyring "ClientCredentials" "sec__//__pw")
        (sampleConf "" "" "" "")).conf.AuthType = "Client Credentials" ∧
      (ConfigFromKeyringSpec sampleCommon id (legacyKeyring "ClientCredentials" "sec__//__pw")
        (sampleConf "" "" "" "")).keyring.secrets (getKeyringServiceName sampleCommon)
        (key "https://cells.example.com" "alice") = some "pw" ∧
      (ConfigFromKeyringSpec sampleCommon id (legacyKeyring "ClientCredentials" "sec__//__pw")
        (sampleConf "" "" "" "")).conf.Password = "pw") ∧
    ((ConfigFromKeyringSpec sampleCommon id (legacyKeyring "IdToken" "tok__//__ref")
        { sampleConf "" "" "" "" with User := "" }).outcome = .returned none ∧
      (ConfigFromKeyringSpec sampleCommon id (legacyKeyring "IdToken" "tok__//__ref")
        { sampleConf "" "" "" "" with User := "" }).keyring.secrets
        (getKeyringServiceName sampleCommon)
        (key "https://cells.example.com" "IdToken") = none ∧
      (ConfigFromKeyringSpec sampleCommon id (legacyKeyring "IdToken" "tok__//__ref")
        { sampleConf "" "" "" "" with User := "" }).conf.AuthType = "OAuth2" ∧
      (ConfigFromKeyringSpec sampleCommon id (legacyKeyring "IdToken" "tok__//__ref")
        { sampleConf "" "" "" "" with User := "" }).keyring.secrets
        (getKeyringServiceName sampleCommon)
        (key "https://cells.example.com" "") = some "tok__//__ref") :=
  ⟨(ConfigFromKeyring_migrates_legacy_entry sampleCommon id
      (legacyKeyring "ClientCredentials" "sec__//__pw") (sampleConf "" "" "" "") "sec" "pw"
      (by decide) ⟨rfl, rfl, rfl⟩ (by decide)).1 (by decide) rfl ⟨rfl, rfl, rfl⟩ (by decide),
   (ConfigFromKeyring_migrates_legacy_entry sampleCommon id
      (legacyKeyring "IdToken" "tok__//__ref") { sampleConf "" "" "" "" with User := "" }
      "tok" "ref" (by decide) ⟨rfl, rfl, rfl⟩ (by decide)).2 rfl rfl rfl rfl ⟨rfl, rfl, rfl⟩
      (by decide) rfl rfl rfl⟩

end CellsClient
